/-
Verification of the ChainSleuth synthetic-dataset generator
(`generate_synthetic_dataset.py` and `generate_5_datasets.py`).

The Python code is shallowly embedded: every generator becomes a Lean
function over explicit parameters standing for the values drawn from the
process-global random source (`random.uniform`, `random.randint`,
`random.sample`, `random.choice`) and from `uuid.uuid4()`.  Amounts and
timestamps are modelled as exact rationals; Python's `round(x, d)` is
modelled as rounding `x` to `d` decimal places.  `random.sample` and
`random.choice` are modelled as deterministic functions of an explicit
list of draw indices, failing (as the Python functions raise) exactly
when the requested sample exceeds the population.
-/
import Mathlib

/-! ## Basic data model -/

/-- A transaction record of `generate_synthetic_dataset.py`: the dict with
keys `Source_wallet`, `Dest_wallet`, `timestamp`, `amount`, `token_type`.
Timestamps are modelled as rational seconds since the epoch (the ISO
strings written by the code compare identically to the instants they
denote). -/
structure Txn where
  Source_wallet : String
  Dest_wallet : String
  timestamp : ℚ
  amount : ℚ
  token_type : String
  deriving Repr, DecidableEq

/-- Model of Python `round(x, d)`: round to `d` decimal places. -/
def roundDec (d : ℕ) (x : ℚ) : ℚ := (round (x * 10 ^ d) : ℚ) / 10 ^ d

/-- `round(x, 6)` as used throughout `generate_synthetic_dataset.py`. -/
def round6 (x : ℚ) : ℚ := roundDec 6 x

/-- `round(x, 2)` as used for amounts in `generate_5_datasets.py`. -/
def round2 (x : ℚ) : ℚ := roundDec 2 x

/-! ## Model of the Python random-sampling primitives

`random.sample(pop, k)` draws `k` distinct elements (distinct positions)
from `pop` and raises `ValueError` when `k` exceeds the population size.
It is modelled Fisher–Yates style: an explicit list of draw indices picks
one remaining position at a time. `random.choice(seq)` picks one element
and raises `IndexError` on an empty sequence. -/

/-- One-at-a-time without-replacement selection driven by draw indices. -/
def sampleGo (dflt : String) : List ℕ → ℕ → List String → List String
  | _, 0, _ => []
  | [], _ + 1, _ => []
  | p :: ps, k + 1, pop =>
    let i := p % pop.length
    pop.getD i dflt :: sampleGo dflt ps k (pop.eraseIdx i)

/-- Model of `random.sample(population, k)`. -/
def sample (picks : List ℕ) (k : ℕ) (population : List String) : Except String (List String) :=
  if k ≤ population.length then .ok (sampleGo "" picks k population)
  else .error "Sample larger than population or is negative"

/-- Model of `random.choice(seq)`. -/
def choice (pick : ℕ) (seq : List String) : Except String String :=
  if seq.isEmpty then .error "Cannot choose from an empty sequence"
  else .ok (seq.getD (pick % seq.length) "")

/-! ## Configuration constants of `generate_synthetic_dataset.py` -/

def NUM_WALLETS : ℕ := 500
def TARGET_TRANSACTIONS : ℕ := 10000
def MIN_INTERMEDIARIES : ℕ := 4
def MAX_INTERMEDIARIES : ℕ := 8
def MIN_LAUNDERING_AMOUNT : ℚ := 10
def MAX_LAUNDERING_AMOUNT : ℚ := 100
def MIN_FEE_PERCENT : ℚ := 1
def MAX_FEE_PERCENT : ℚ := 5
def TOKEN_TYPES : List String := ["ETH", "BTC", "USDT", "USDC", "DAI"]
def LAUNDERING_TOKEN_TYPE : String := "ETH"

/-! ## Wallet generation -/

/-- `generate_wallet_address` (both files): `"0x" + uuid.uuid4().hex[:40]`.
The uuid hex digest is an input: it comes from the operating-system
randomness used by `uuid.uuid4()`, which is not governed by the `random`
module's seed. -/
def generate_wallet_address (uuidHex : String) : String := "0x" ++ uuidHex.take 40

/-- `create_wallet_pool`: `[generate_wallet_address() for _ in range(num_wallets)]`,
consuming one uuid digest per wallet. -/
def create_wallet_pool (num_wallets : ℕ) (uuidHexes : ℕ → String) : List String :=
  (List.range num_wallets).map (fun i => generate_wallet_address (uuidHexes i))

/-! ## Fan-out/fan-in laundering chain (`generate_laundering_chain`, main file) -/

/-- Phase 1 of `generate_laundering_chain` (lines 100–117): for each
intermediary, emit one record whose amount is the even split times the
drawn ±5% variation, then advance the clock by the drawn gap.  Input is
the intermediaries zipped with their per-leg draws `(variation, gap)`;
the second component of the result is the clock after the loop. -/
def fanOutLoop (source_wallet : String) (amount_per_intermediate : ℚ) :
    List (String × ℚ × ℚ) → ℚ → List Txn × ℚ
  | [], t => ([], t)
  | (intermediate, variation, gap) :: rest, t =>
    let txn : Txn :=
      { Source_wallet := source_wallet, Dest_wallet := intermediate,
        timestamp := t, amount := round6 (amount_per_intermediate * variation),
        token_type := LAUNDERING_TOKEN_TYPE }
    let out := fanOutLoop source_wallet amount_per_intermediate rest (t + gap)
    (txn :: out.1, out.2)

/-- Phase 2 of `generate_laundering_chain` (lines 123–140): for each
intermediary, emit one record towards the aggregation wallet whose amount
is the even split reduced by the drawn fee percentage (`uniform(1,5)/100`). -/
def fanInLoop (aggregation_wallet : String) (amount_per_intermediate : ℚ) :
    List (String × ℚ × ℚ) → ℚ → List Txn × ℚ
  | [], t => ([], t)
  | (intermediate, fee_percent, gap) :: rest, t =>
    let txn : Txn :=
      { Source_wallet := intermediate, Dest_wallet := aggregation_wallet,
        timestamp := t,
        amount := round6 (amount_per_intermediate * (1 - fee_percent / 100)),
        token_type := LAUNDERING_TOKEN_TYPE }
    let out := fanInLoop aggregation_wallet amount_per_intermediate rest (t + gap)
    (txn :: out.1, out.2)

/-- `generate_laundering_chain` (main file, lines 74–142).  The random
draws are explicit parameters: `samplePicks` drive `random.sample`,
`num_intermediaries` is the `randint(MIN, MAX)` draw, `initial_amount`
the `uniform(MIN_LAUNDERING_AMOUNT, MAX_LAUNDERING_AMOUNT)` draw,
`variations` the per-leg `uniform(0.95, 1.05)` draws, `fees` the per-leg
`uniform(MIN_FEE_PERCENT, MAX_FEE_PERCENT)` draws, the gap lists the
`randint` hop delays and `interPhaseGap` the `randint(60, 300)` pause. -/
def generate_laundering_chain (wallets : List String) (samplePicks : List ℕ)
    (num_intermediaries : ℕ) (initial_amount : ℚ)
    (variations fees fanOutGaps fanInGaps : List ℚ)
    (interPhaseGap : ℚ) (base_timestamp : ℚ) : Except String (List Txn) := do
  let available_wallets ←
    sample samplePicks (MIN_INTERMEDIARIES + MAX_INTERMEDIARIES + 2) wallets
  let source_wallet := available_wallets.getD 0 ""
  let intermediaries := (available_wallets.drop 1).take num_intermediaries
  let aggregation_wallet := available_wallets.getLastD ""
  let amount_per_intermediate := initial_amount / (num_intermediaries : ℚ)
  let fanOut := fanOutLoop source_wallet amount_per_intermediate
    (intermediaries.zip (variations.zip fanOutGaps)) base_timestamp
  let current_time := fanOut.2 + interPhaseGap
  let fanIn := fanInLoop aggregation_wallet amount_per_intermediate
    (intermediaries.zip (fees.zip fanInGaps)) current_time
  return fanOut.1 ++ fanIn.1

/-! ## Zip projection helpers -/

/-! ## The `generate_5_datasets.py` variant -/

/-- `round(x, 4)` as used for gas fees in `generate_5_datasets.py`. -/
def round4 (x : ℚ) : ℚ := roundDec 4 x

/-- A transaction record of `generate_5_datasets.py` (the richer dict with
hash, gas fee and a pattern-category tag). -/
structure Txn5 where
  transaction_hash : String
  from_wallet : String
  to_wallet : String
  amount : ℚ
  token_type : String
  timestamp : ℚ
  gas_fee : ℚ
  transaction_type : String
  deriving Repr, DecidableEq

/-- One dataset configuration dict of `generate_5_datasets.py` (the
fields of the entries of `DATASETS` that the generator core reads). -/
structure Config5 where
  num_wallets : ℕ
  num_chains : ℕ
  normal_transactions : ℕ
  min_hops : ℕ
  max_hops : ℕ
  min_normal : ℚ
  max_normal : ℚ
  min_launder : ℚ
  max_launder : ℚ
  tokens : List String
  start_date : ℚ
  end_date : ℚ

/-- Fan-out phase of `generate_laundering_chain` in `generate_5_datasets.py`
(lines 68–81): the clock advances by the drawn gap *before* the record is
emitted; the per-leg draws are `(variation ∈ [0.95, 1.0], gap, uuid hex for
the hash, gas fee)`. -/
def fanOutLoop5 (source_wallet : String) (amount_per_intermediate : ℚ) :
    List (String × ℚ × ℚ × String × ℚ) → ℚ → List Txn5 × ℚ
  | [], t => ([], t)
  | (intermediate, variation, gap, hash, gas) :: rest, t =>
    let t1 := t + gap
    let txn : Txn5 :=
      { transaction_hash := "0x" ++ hash.take 64, from_wallet := source_wallet,
        to_wallet := intermediate, amount := round2 (amount_per_intermediate * variation),
        token_type := "ETH", timestamp := t1, gas_fee := round4 gas,
        transaction_type := "laundering_chain" }
    let out := fanOutLoop5 source_wallet amount_per_intermediate rest t1
    (txn :: out.1, out.2)

/-- Fan-in phase of `generate_laundering_chain` in `generate_5_datasets.py`
(lines 84–95): fixed retained fraction `0.92` of the un-jittered split. -/
def fanInLoop5 (aggregation_wallet : String) (amount_per_intermediate : ℚ) :
    List (String × ℚ × String × ℚ) → ℚ → List Txn5 × ℚ
  | [], t => ([], t)
  | (intermediate, gap, hash, gas) :: rest, t =>
    let t1 := t + gap
    let txn : Txn5 :=
      { transaction_hash := "0x" ++ hash.take 64, from_wallet := intermediate,
        to_wallet := aggregation_wallet,
        amount := round2 (amount_per_intermediate * (92 / 100)),
        token_type := "ETH", timestamp := t1, gas_fee := round4 gas,
        transaction_type := "laundering_chain" }
    let out := fanInLoop5 aggregation_wallet amount_per_intermediate rest t1
    (txn :: out.1, out.2)

/-- `generate_laundering_chain` of `generate_5_datasets.py` (lines 53–97). -/
def generate_laundering_chain5 (wallets : List String) (samplePicks : List ℕ)
    (cfg : Config5) (num_intermediaries : ℕ) (initial_amount : ℚ)
    (fanOutDraws : List (ℚ × ℚ × String × ℚ)) (fanInDraws : List (ℚ × String × ℚ))
    (base_timestamp : ℚ) : Except String (List Txn5) := do
  let available_wallets ← sample samplePicks (min (cfg.max_hops + 2) wallets.length) wallets
  let source_wallet := available_wallets.getD 0 ""
  let intermediaries := (available_wallets.drop 1).take num_intermediaries
  let aggregation_wallet := available_wallets.getLastD ""
  let amount_per_intermediate := initial_amount / (num_intermediaries : ℚ)
  let fanOut := fanOutLoop5 source_wallet amount_per_intermediate
    (intermediaries.zip fanOutDraws) base_timestamp
  let fanIn := fanInLoop5 aggregation_wallet amount_per_intermediate
    (intermediaries.zip fanInDraws) fanOut.2
  return fanOut.1 ++ fanIn.1

/-! ## Decomposition of the chain generators on success -/

/-! ## Concrete inputs for the fan-out/fan-in claim -/

/-- Fourteen distinct wallets, enough for one laundering-chain sample. -/
def chainPoolA : List String :=
  ["a00","a01","a02","a03","a04","a05","a06","a07","a08","a09","a10","a11","a12","a13"]

/-- The record list produced by `generate_laundering_chain` on `chainPoolA`
with 4 intermediaries, initial amount 40, variations 1.05, fees 5%, hop
gaps 5 s and inter-phase pause 60 s. -/
def chainTxsA : List Txn :=
  [⟨"a00", "a01", 0, 10.5, "ETH"⟩, ⟨"a00", "a02", 5, 10.5, "ETH"⟩,
   ⟨"a00", "a03", 10, 10.5, "ETH"⟩, ⟨"a00", "a04", 15, 10.5, "ETH"⟩,
   ⟨"a01", "a13", 80, 9.5, "ETH"⟩, ⟨"a02", "a13", 85, 9.5, "ETH"⟩,
   ⟨"a03", "a13", 90, 9.5, "ETH"⟩, ⟨"a04", "a13", 95, 9.5, "ETH"⟩]

/-- The `small_network.csv` configuration dict from `generate_5_datasets.py`. -/
def smallNetworkCfg : Config5 :=
  ⟨150, 2, 2000, 2, 4, 0.5, 25, 5, 30, ["ETH", "USDC", "DAI"], 0, 7776000⟩

/-- The record list produced by the `generate_5_datasets.py` chain generator
on a six-wallet pool with 4 intermediaries, initial amount 40, variations
0.95 and hop gaps 5 s. -/
def chainTxsB : List Txn5 :=
  [⟨"0xh", "b0", "b1", 9.5, "ETH", 5, 0.001, "laundering_chain"⟩,
   ⟨"0xh", "b0", "b2", 9.5, "ETH", 10, 0.001, "laundering_chain"⟩,
   ⟨"0xh", "b0", "b3", 9.5, "ETH", 15, 0.001, "laundering_chain"⟩,
   ⟨"0xh", "b0", "b4", 9.5, "ETH", 20, 0.001, "laundering_chain"⟩,
   ⟨"0xh", "b1", "b5", 9.2, "ETH", 25, 0.001, "laundering_chain"⟩,
   ⟨"0xh", "b2", "b5", 9.2, "ETH", 30, 0.001, "laundering_chain"⟩,
   ⟨"0xh", "b3", "b5", 9.2, "ETH", 35, 0.001, "laundering_chain"⟩,
   ⟨"0xh", "b4", "b5", 9.2, "ETH", 40, 0.001, "laundering_chain"⟩]

/-! ## Normal transactions and the dataset assembler (main file) -/

/-- `generate_normal_transaction` (lines 433–444): `random.sample(wallets, 2)`
supplies two distinct wallets, the amount is a `uniform` draw rounded to 6
decimals, and the token a `random.choice` from `TOKEN_TYPES`. -/
def generate_normal_transaction (wallets : List String) (pairPicks : List ℕ)
    (amount : ℚ) (tokenPick : ℕ) (timestamp : ℚ) : Except String Txn := do
  let pair ← sample pairPicks 2 wallets
  let token ← choice tokenPick TOKEN_TYPES
  return { Source_wallet := pair.getD 0 "", Dest_wallet := pair.getD 1 "",
           timestamp := timestamp, amount := round6 amount, token_type := token }

/-- The global sort of the assembled record list (line 534):
`all_transactions.sort(key=lambda x: x["timestamp"])`.  Python `list.sort`
is a stable sort by the key; it is modelled by the stable `mergeSort` on
the timestamp order. -/
def sortByTimestamp (l : List Txn) : List Txn :=
  l.mergeSort (fun a b => decide (a.timestamp ≤ b.timestamp))

/-- `generate_dataset` of `generate_synthetic_dataset.py` (steps 1–4, lines
456–541).  The seven pattern-generation loops of step 2 are abstracted as
`patterns`, the function from the wallet pool to the suspicious records
they append (in generation order), and `generate_normal_transaction`
together with its draws as `normalDraw`.  Step 3 computes
`normal_count = TARGET_TRANSACTIONS - laundering_count` and runs
`for i in range(normal_count)`: a negative difference yields an empty
`range` (modelled by `Int.toNat`) and no error.  `target` generalises the
`TARGET_TRANSACTIONS` constant. -/
def generate_dataset (target num_wallets : ℕ) (uuidHexes : ℕ → String)
    (patterns : List String → List Txn) (normalDraw : ℕ → List String → Txn) : List Txn :=
  let wallets := create_wallet_pool num_wallets uuidHexes
  let suspicious := patterns wallets
  let laundering_count := suspicious.length
  let normal_count : ℤ := (target : ℤ) - (laundering_count : ℤ)
  let background := (List.range normal_count.toNat).map (fun i => normalDraw i wallets)
  sortByTimestamp (suspicious ++ background)

/-! ## Circular pattern (`generate_circular_pattern`) -/

/-- The loop of `generate_circular_pattern` (lines 164–180): at index `i`
the wallet at position `i` sends to the wallet at position `(i+1) %
cycle_length`; the running amount is multiplied by `1 - fee` (fee drawn
from `uniform(0.01, 0.03)`) before being recorded, and the clock advances
by the drawn gap after each record. -/
def circularLoop (cycle_wallets : List String) (cycle_length : ℕ) :
    List (ℚ × ℚ) → ℕ → ℚ → ℚ → List Txn
  | [], _, _, _ => []
  | (fee, gap) :: rest, i, current_amount, t =>
    let current2 := current_amount * (1 - fee)
    { Source_wallet := cycle_wallets.getD i "",
      Dest_wallet := cycle_wallets.getD ((i + 1) % cycle_length) "",
      timestamp := t, amount := round6 current2,
      token_type := LAUNDERING_TOKEN_TYPE } ::
    circularLoop cycle_wallets cycle_length rest (i + 1) current2 (t + gap)

/-- `generate_circular_pattern` (lines 148–182): `cycle_length` is the
`randint(3, 6)` draw, `cyclePicks` drive `random.sample`, and `feeGaps`
holds the per-iteration `(uniform(0.01, 0.03), randint(30, 180))` draws of
the `for i in range(cycle_length)` loop (one entry per iteration). -/
def generate_circular_pattern (wallets : List String) (cycle_length : ℕ)
    (cyclePicks : List ℕ) (initial_amount : ℚ) (feeGaps : List (ℚ × ℚ)) (t0 : ℚ) :
    Except String (List Txn) := do
  let cycle_wallets ← sample cyclePicks cycle_length wallets
  return circularLoop cycle_wallets cycle_length feeGaps 0 initial_amount t0

/-- The record list produced by `generate_circular_pattern` on a
three-wallet cycle with initial amount 40, fee 2% and gaps of 30 s. -/
def circTxs : List Txn :=
  [⟨"c0", "c1", 0, 39.2, "ETH"⟩, ⟨"c1", "c2", 30, 38.416, "ETH"⟩,
   ⟨"c2", "c0", 60, 37.64768, "ETH"⟩]

/-! ## Pass-through pattern (`generate_passthrough_pattern`) -/

/-- Inflow phase (lines 301–311): each source sends its drawn
`uniform(15, 40)` amount to the pass-through wallet; the *raw* amount is
accumulated into `total_inflow` (the last component), while the record
carries the rounded amount. -/
def ptInflow (passthrough_wallet : String) :
    List (String × ℚ × ℚ) → ℚ → ℚ → List Txn × ℚ × ℚ
  | [], t, total => ([], t, total)
  | (source, amount, gap) :: rest, t, total =>
    let out := ptInflow passthrough_wallet rest (t + gap) (total + amount)
    ({ Source_wallet := source, Dest_wallet := passthrough_wallet, timestamp := t,
       amount := round6 amount, token_type := LAUNDERING_TOKEN_TYPE } :: out.1,
     out.2.1, out.2.2)

/-- Outflow phase (lines 320–328): each destination receives the even
per-destination share times a ±5% jitter. -/
def ptOutflow (passthrough_wallet : String) (amount_per_dest : ℚ) :
    List (String × ℚ × ℚ) → ℚ → List Txn × ℚ
  | [], t => ([], t)
  | (dest, jitter, gap) :: rest, t =>
    let out := ptOutflow passthrough_wallet amount_per_dest rest (t + gap)
    ({ Source_wallet := passthrough_wallet, Dest_wallet := dest, timestamp := t,
       amount := round6 (amount_per_dest * jitter),
       token_type := LAUNDERING_TOKEN_TYPE } :: out.1,
     out.2)

/-- `generate_passthrough_pattern` (lines 283–330): `num_sources` and
`num_dests` are the `randint(3, 6)` draws, `outflow_ratio` the
`uniform(0.90, 0.95)` draw; `amount_per_dest = total_inflow *
outflow_ratio / num_dests`. -/
def generate_passthrough_pattern (wallets : List String) (ptPick : ℕ)
    (num_sources num_dests : ℕ) (srcPicks dstPicks : List ℕ)
    (inAmounts inGaps : List ℚ) (pause : ℚ) (outflow_ratio : ℚ)
    (outJitters outGaps : List ℚ) (t0 : ℚ) : Except String (List Txn) := do
  let passthrough_wallet ← choice ptPick wallets
  let sources ← sample srcPicks num_sources
    (wallets.filter (fun w => decide (w ≠ passthrough_wallet)))
  let dests ← sample dstPicks num_dests
    (wallets.filter (fun w => decide (w ≠ passthrough_wallet ∧ w ∉ sources)))
  let inflow := ptInflow passthrough_wallet (sources.zip (inAmounts.zip inGaps)) t0 0
  let current_time := inflow.2.1 + pause
  let amount_per_dest := inflow.2.2 * outflow_ratio / (num_dests : ℚ)
  let outflow := ptOutflow passthrough_wallet amount_per_dest
    (dests.zip (outJitters.zip outGaps)) current_time
  return inflow.1 ++ outflow.1

/-- The record list produced by `generate_passthrough_pattern` on a
seven-wallet pool with 3 sources sending 20 each, ratio 0.90 and unit
jitters. -/
def ptTxs : List Txn :=
  [⟨"s1", "p", 0, 20, "ETH"⟩, ⟨"s2", "p", 10, 20, "ETH"⟩, ⟨"s3", "p", 20, 20, "ETH"⟩,
   ⟨"p", "d1", 60, 18, "ETH"⟩, ⟨"p", "d2", 70, 18, "ETH"⟩, ⟨"p", "d3", 80, 18, "ETH"⟩]

/-! ## Layering pattern (`generate_layering_pattern`) -/

/-- Level 0 → 1 loop of `generate_layering_pattern` (lines 206–214):
the source feeds each level-1 wallet an even third with ±5% jitter. -/
def layerL01 (source : String) (split_amount : ℚ) :
    List (String × ℚ × ℚ) → ℚ → List Txn × ℚ
  | [], t => ([], t)
  | (wallet, jitter, gap) :: rest, t =>
    let out := layerL01 source split_amount rest (t + gap)
    ({ Source_wallet := source, Dest_wallet := wallet, timestamp := t,
       amount := round6 (split_amount * jitter),
       token_type := LAUNDERING_TOKEN_TYPE } :: out.1, out.2)

/-- Level 1 → 2 loop (lines 219–229): level-1 wallet `i` feeds level-2
wallets `2i` and `2i+1`, each with the halved split reduced by 5%. -/
def layerL12 (level1 level2 : List String) (split_amount : ℚ) :
    List ((ℕ × ℕ) × ℚ) → ℚ → List Txn × ℚ
  | [], t => ([], t)
  | ((i, j), gap) :: rest, t =>
    let out := layerL12 level1 level2 split_amount rest (t + gap)
    ({ Source_wallet := level1.getD i "", Dest_wallet := level2.getD (i * 2 + j) "",
       timestamp := t, amount := round6 (split_amount / 2 * (95 / 100)),
       token_type := LAUNDERING_TOKEN_TYPE } :: out.1, out.2)

/-- Level 2 → final loop (lines 234–242): every level-2 wallet converges on
the final destination with a sixth of the split reduced by 10%. -/
def layerL2F (final_dest : String) (split_amount : ℚ) :
    List (String × ℚ) → ℚ → List Txn × ℚ
  | [], t => ([], t)
  | (wallet, gap) :: rest, t =>
    let out := layerL2F final_dest split_amount rest (t + gap)
    ({ Source_wallet := wallet, Dest_wallet := final_dest, timestamp := t,
       amount := round6 (split_amount / 6 * (9 / 10)),
       token_type := LAUNDERING_TOKEN_TYPE } :: out.1, out.2)

/-- `generate_layering_pattern` (lines 188–244): the source is a
`random.choice` from the pool, the 3 level-1 wallets a `random.sample`
from the pool minus the source, the 6 level-2 wallets a `random.sample`
excluding the source and level 1, and the final destination a
`random.choice` from what remains.  `random.sample` raises `ValueError`
and `random.choice` `IndexError` when the filtered pool is too small, so
a pool with fewer than 11 distinct wallets makes the call fail before any
record is produced. -/
def generate_layering_pattern (wallets : List String) (srcPick : ℕ)
    (l1Picks l2Picks : List ℕ) (finalPick : ℕ) (initial_amount : ℚ)
    (l1Jitters l1Gaps : List ℚ) (pause1 : ℚ) (l12Gaps : List ℚ) (pause2 : ℚ)
    (l2Gaps : List ℚ) (t0 : ℚ) : Except String (List Txn) := do
  let source ← choice srcPick wallets
  let level1 ← sample l1Picks 3 (wallets.filter (fun w => decide (w ≠ source)))
  let level2 ← sample l2Picks 6
    (wallets.filter (fun w => decide (w ≠ source ∧ w ∉ level1)))
  let final_dest ← choice finalPick
    (wallets.filter (fun w => decide (w ≠ source ∧ w ∉ level1 ∧ w ∉ level2)))
  let split_amount := initial_amount / 3
  let p01 := layerL01 source split_amount (level1.zip (l1Jitters.zip l1Gaps)) t0
  let t1 := p01.2 + pause1
  let idx := (List.range level1.length).bind (fun i => (List.range 2).map (fun j => (i, j)))
  let p12 := layerL12 level1 level2 split_amount (idx.zip l12Gaps) t1
  let t2 := p12.2 + pause2
  let p2F := layerL2F final_dest split_amount (level2.zip l2Gaps) t2
  return p01.1 ++ p12.1 ++ p2F.1

/-! ## Structuring pattern (`generate_structuring_pattern`) -/

/-- The emission loop of `generate_structuring_pattern` (lines 266–275):
one sub-threshold record per destination at rapid intervals. -/
def structuringLoop (source : String) :
    List (String × ℚ × ℚ) → ℚ → List Txn × ℚ
  | [], t => ([], t)
  | (dest, amount, gap) :: rest, t =>
    let out := structuringLoop source rest (t + gap)
    ({ Source_wallet := source, Dest_wallet := dest, timestamp := t,
       amount := round6 amount, token_type := LAUNDERING_TOKEN_TYPE } :: out.1, out.2)

/-- `generate_structuring_pattern` (lines 250–277): `num_smurfs` is the
`randint(15, 25)` draw, the destinations a `random.sample` from the pool
minus the source, `small_amounts` the `uniform(3, 9.5)` draws. -/
def generate_structuring_pattern (wallets : List String) (srcPick : ℕ)
    (num_smurfs : ℕ) (destPicks : List ℕ) (small_amounts gaps : List ℚ) (t0 : ℚ) :
    Except String (List Txn) := do
  let source ← choice srcPick wallets
  let destinations ← sample destPicks num_smurfs
    (wallets.filter (fun w => decide (w ≠ source)))
  return (structuringLoop source (destinations.zip (small_amounts.zip gaps)) t0).1

/-! ## Peel chain (`generate_peel_chain`) -/

/-- The hop loop of `generate_peel_chain` (lines 350–366): wallet `i` sends
to wallet `i+1`, the carried value losing a drawn 10–20% per hop. -/
def peelLoop (chain_wallets : List String) :
    List (ℚ × ℚ) → ℕ → ℚ → ℚ → List Txn
  | [], _, _, _ => []
  | (peel_percent, gap) :: rest, i, current_amount, t =>
    let current2 := current_amount * (1 - peel_percent)
    { Source_wallet := chain_wallets.getD i "",
      Dest_wallet := chain_wallets.getD (i + 1) "",
      timestamp := t, amount := round6 current2,
      token_type := LAUNDERING_TOKEN_TYPE } ::
    peelLoop chain_wallets rest (i + 1) current2 (t + gap)

/-- `generate_peel_chain` (lines 336–368): `chain_length` is the
`randint(5, 8)` draw; the loop runs `chain_length - 1` times, so
`peelGaps` carries one `(uniform(0.10, 0.20), randint(60, 300))` pair per
hop. -/
def generate_peel_chain (wallets : List String) (chain_length : ℕ)
    (chainPicks : List ℕ) (initial_amount : ℚ) (peelGaps : List (ℚ × ℚ)) (t0 : ℚ) :
    Except String (List Txn) := do
  let chain_wallets ← sample chainPicks chain_length wallets
  return peelLoop chain_wallets peelGaps 0 initial_amount t0

/-! ## Mixer interactions (`generate_mixer_interactions`) -/

/-- `create_mixer_wallets` (lines 374–381): the two fixed mixer addresses.
Both differ in length from every pool wallet (which is `"0x"` plus 32 hex
characters), so they never collide with the pool. -/
def create_mixer_wallets : List String :=
  ["0x0000000000000000000000000000000000000000", "0xdeaddeaddeaddeaddeaddeaddeaddeaddead"]

/-- Inflow phase of `generate_mixer_interactions` (lines 398–408). -/
def mixerInflow (mixer : String) :
    List (String × ℚ × ℚ) → ℚ → ℚ → List Txn × ℚ × ℚ
  | [], t, total => ([], t, total)
  | (user, amount, gap) :: rest, t, total =>
    let out := mixerInflow mixer rest (t + gap) (total + amount)
    ({ Source_wallet := user, Dest_wallet := mixer, timestamp := t,
       amount := round6 amount, token_type := LAUNDERING_TOKEN_TYPE } :: out.1,
     out.2.1, out.2.2)

/-- Outflow phase of `generate_mixer_interactions` (lines 417–425). -/
def mixerOutflow (mixer : String) (amount_per_output : ℚ) :
    List (String × ℚ × ℚ) → ℚ → List Txn × ℚ
  | [], t => ([], t)
  | (output_wallet, jitter, gap) :: rest, t =>
    let out := mixerOutflow mixer amount_per_output rest (t + gap)
    ({ Source_wallet := mixer, Dest_wallet := output_wallet, timestamp := t,
       amount := round6 (amount_per_output * jitter),
       token_type := LAUNDERING_TOKEN_TYPE } :: out.1, out.2)

/-- `generate_mixer_interactions` (lines 383–427): `num_users` users send
to one mixer address; after a long pause the mixer redistributes 97% of
the accumulated total evenly (with jitter) to outputs sampled from the
pool minus the users. -/
def generate_mixer_interactions (wallets mixer_wallets : List String) (num_users : ℕ)
    (userPicks : List ℕ) (mixerPick : ℕ) (amounts gaps1 : List ℚ) (pause : ℚ)
    (outPicks : List ℕ) (jitters gaps2 : List ℚ) (t0 : ℚ) : Except String (List Txn) := do
  let users ← sample userPicks num_users wallets
  let mixer ← choice mixerPick mixer_wallets
  let inflow := mixerInflow mixer (users.zip (amounts.zip gaps1)) t0 0
  let current_time := inflow.2.1 + pause
  let output_wallets ← sample outPicks num_users
    (wallets.filter (fun w => decide (w ∉ users)))
  let amount_per_output := inflow.2.2 * (97 / 100) / (num_users : ℚ)
  let outflow := mixerOutflow mixer amount_per_output
    (output_wallets.zip (jitters.zip gaps2)) current_time
  return inflow.1 ++ outflow.1

/-! ## Background records of `generate_5_datasets.py` -/

/-- The destination retry loop of `generate_dataset` in
`generate_5_datasets.py` (lines 30–33): `random.choice` redraws until the
destination differs from the source.  `picks` are the successive choice
draws; the result is the first drawn wallet differing from the source
(`none` when no listed draw differs — the Python loop would keep
drawing). -/
def chooseDestination (wallets : List String) (source : String) (picks : List ℕ) :
    Option String :=
  (picks.map (fun p => wallets.getD (p % wallets.length) "")).find?
    (fun w => decide (w ≠ source))

/-- A record produced by any generator has no self-transfer when its source
and destination wallets differ. -/
def NoSelfTransfer (txs : List Txn) : Prop :=
  ∀ t ∈ txs, t.Source_wallet ≠ t.Dest_wallet

/-- Self-transfer freedom for the richer records of
`generate_5_datasets.py`. -/
def NoSelfTransfer5 (txs : List Txn5) : Prop :=
  ∀ t ∈ txs, t.from_wallet ≠ t.to_wallet

/-- Every record of a suspicious-pattern generator carries the single
constant laundering token. -/
def AllLaunderingToken (txs : List Txn) : Prop :=
  ∀ t ∈ txs, t.token_type = LAUNDERING_TOKEN_TYPE

/-! ## Concrete runs shared by the invariant claims -/

/-- Eleven distinct wallets, enough for one layering pattern. -/
def layerPool : List String :=
  ["y0","y1","y2","y3","y4","y5","y6","y7","y8","y9","yA"]

/-- The record list produced by `generate_layering_pattern` on `layerPool`
with initial amount 30, unit jitters and zero gaps. -/
def layerTxs : List Txn :=
  [⟨"y0","y1",0,10,"ETH"⟩, ⟨"y0","y2",0,10,"ETH"⟩, ⟨"y0","y3",0,10,"ETH"⟩,
   ⟨"y1","y4",0,4.75,"ETH"⟩, ⟨"y1","y5",0,4.75,"ETH"⟩, ⟨"y2","y6",0,4.75,"ETH"⟩,
   ⟨"y2","y7",0,4.75,"ETH"⟩, ⟨"y3","y8",0,4.75,"ETH"⟩, ⟨"y3","y9",0,4.75,"ETH"⟩,
   ⟨"y4","yA",0,1.5,"ETH"⟩, ⟨"y5","yA",0,1.5,"ETH"⟩, ⟨"y6","yA",0,1.5,"ETH"⟩,
   ⟨"y7","yA",0,1.5,"ETH"⟩, ⟨"y8","yA",0,1.5,"ETH"⟩, ⟨"y9","yA",0,1.5,"ETH"⟩]

/-- The record list produced by `generate_structuring_pattern` on a
three-wallet pool with two smurfs of 5 each. -/
def structTxs : List Txn :=
  [⟨"u0","u1",0,5,"ETH"⟩, ⟨"u0","u2",0,5,"ETH"⟩]

/-- The record list produced by `generate_peel_chain` on a three-wallet
chain with initial amount 40 and 10% peel per hop. -/
def peelTxs : List Txn :=
  [⟨"v0","v1",0,36,"ETH"⟩, ⟨"v1","v2",0,32.4,"ETH"⟩]

/-- The record list produced by `generate_mixer_interactions` with one
user sending 10 through the zero-address mixer. -/
def mixerTxs : List Txn :=
  [⟨"m0","0x0000000000000000000000000000000000000000",0,10,"ETH"⟩,
   ⟨"0x0000000000000000000000000000000000000000","m1",0,9.7,"ETH"⟩]

/-- The record produced by `generate_normal_transaction` on a two-wallet
pool with amount 7 and the first token. -/
def normalTxnA : Txn := ⟨"n1","n2",0,7,"ETH"⟩

/-! ## Theorems -/

theorem exceptOk_bind {α β : Type} (a : α) (f : α → Except String β) :
    (Except.ok a >>= f) = f a := rfl

theorem exceptError_bind {α β : Type} (e : String) (f : α → Except String β) :
    ((Except.error e : Except String α) >>= f) = Except.error e := rfl

theorem exceptMap_ok {α β : Type} (a : α) (f : α → β) :
    (f <$> (Except.ok a : Except String α)) = Except.ok (f a) := rfl

theorem round_le_round_of_le {x y : ℚ} (h : x ≤ y) : round x ≤ round y := by
  rw [round_eq, round_eq]
  exact Int.floor_le_floor (by linarith)

theorem roundDec_mono (d : ℕ) {x y : ℚ} (h : x ≤ y) : roundDec d x ≤ roundDec d y := by
  unfold roundDec
  have hp : (0 : ℚ) < 10 ^ d := by positivity
  have h2 : round (x * 10 ^ d) ≤ round (y * 10 ^ d) :=
    round_le_round_of_le (by nlinarith)
  have h3 : ((round (x * 10 ^ d) : ℤ) : ℚ) ≤ ((round (y * 10 ^ d) : ℤ) : ℚ) := by
    exact_mod_cast h2
  exact div_le_div_of_nonneg_right h3 hp.le

theorem abs_roundDec_sub (d : ℕ) (x : ℚ) : |roundDec d x - x| ≤ 1 / (2 * 10 ^ d) := by
  have hp : (0 : ℚ) < 10 ^ d := by positivity
  have h := abs_sub_round (x * 10 ^ d)
  rw [abs_sub_comm] at h
  have key : roundDec d x - x = ((round (x * 10 ^ d) : ℚ) - x * 10 ^ d) / 10 ^ d := by
    rw [roundDec]
    field_simp
    ring
  rw [key, abs_div, abs_of_pos hp, div_le_div_iff₀ hp (by positivity)]
  nlinarith [mul_le_mul_of_nonneg_right h hp.le]

theorem roundDec_le_add (d : ℕ) (x : ℚ) : roundDec d x ≤ x + 1 / (2 * 10 ^ d) := by
  have h := abs_roundDec_sub d x
  have := abs_le.mp h
  linarith [this.2]

theorem sub_le_roundDec (d : ℕ) (x : ℚ) : x - 1 / (2 * 10 ^ d) ≤ roundDec d x := by
  have h := abs_roundDec_sub d x
  have := abs_le.mp h
  linarith [this.1]

theorem sample_isOk_iff {picks : List ℕ} {k : ℕ} {pop : List String} :
    (sample picks k pop).isOk = true ↔ k ≤ pop.length := by
  unfold sample
  split <;> simp_all [Except.isOk, Except.toBool]

theorem sample_ok {picks : List ℕ} {k : ℕ} {pop l : List String}
    (h : sample picks k pop = .ok l) : l = sampleGo "" picks k pop ∧ k ≤ pop.length := by
  unfold sample at h
  split at h
  · exact ⟨(Except.ok.injEq _ _).mp h |>.symm, by assumption⟩
  · cases h

theorem sample_error {picks : List ℕ} {k : ℕ} {pop : List String}
    (h : pop.length < k) : sample picks k pop = .error "Sample larger than population or is negative" := by
  unfold sample
  rw [if_neg (by omega)]

theorem choice_ok {pick : ℕ} {seq : List String} {x : String}
    (h : choice pick seq = .ok x) : x ∈ seq := by
  unfold choice at h
  split at h
  · cases h
  · next hne =>
    have hlen : 0 < seq.length := by
      cases seq with
      | nil => simp at hne
      | cons a l => simp
    have hmem : seq.getD (pick % seq.length) "" ∈ seq := by
      rw [List.getD_eq_getElem?_getD]
      have hlt : pick % seq.length < seq.length := Nat.mod_lt _ hlen
      rw [List.getElem?_eq_getElem hlt]
      exact List.getElem_mem _
    rw [← (Except.ok.injEq _ _).mp h]
    exact hmem

theorem sampleGo_subset (dflt : String) :
    ∀ (picks : List ℕ) (k : ℕ) (pop : List String), 0 < k → k ≤ pop.length →
      ∀ x ∈ sampleGo dflt picks k pop, x ∈ pop := by
  intro picks
  induction picks with
  | nil => intro k pop _ _ x hx; cases k <;> simp [sampleGo] at hx
  | cons p ps ih =>
    intro k pop hk hkp x hx
    cases k with
    | zero => simp [sampleGo] at hx
    | succ k =>
      simp only [sampleGo, List.mem_cons] at hx
      have hlen : 0 < pop.length := by omega
      rcases hx with hx | hx
      · subst hx
        rw [List.getD_eq_getElem?_getD]
        have hlt : p % pop.length < pop.length := Nat.mod_lt _ hlen
        rw [List.getElem?_eq_getElem hlt]
        exact List.getElem_mem _
      · rcases Nat.eq_zero_or_pos k with hk0 | hk0
        · subst hk0; simp [sampleGo] at hx
        · have hkle : k ≤ (pop.eraseIdx (p % pop.length)).length := by
            have := List.length_eraseIdx_add_one (Nat.mod_lt p hlen)
            omega
          exact List.eraseIdx_subset _ _ (ih k _ hk0 hkle x hx)

theorem sample_ok_subset {picks : List ℕ} {k : ℕ} {pop l : List String}
    (h : sample picks k pop = .ok l) : ∀ x ∈ l, x ∈ pop := by
  obtain ⟨rfl, hk⟩ := sample_ok h
  intro x hx
  rcases Nat.eq_zero_or_pos k with hk0 | hk0
  · subst hk0; cases picks <;> simp [sampleGo] at hx
  · exact sampleGo_subset "" picks k pop hk0 hk x hx

theorem getElem_not_mem_eraseIdx {pop : List String} (hnd : pop.Nodup)
    {i : ℕ} (hi : i < pop.length) : pop[i] ∉ pop.eraseIdx i := by
  have hdecomp : pop = pop.take i ++ (pop[i] :: pop.drop (i + 1)) := by
    conv_lhs => rw [← List.take_append_drop i pop]
    rw [List.drop_eq_getElem_cons hi]
  have hcount1 : pop.count pop[i] = 1 :=
    List.count_eq_one_of_mem hnd (List.getElem_mem hi)
  have hsplit := congrArg (List.count pop[i]) hdecomp
  rw [List.count_append, List.count_cons_self] at hsplit
  rw [← List.count_eq_zero, List.eraseIdx_eq_take_drop_succ, List.count_append]
  omega

theorem sampleGo_nodup :
    ∀ (picks : List ℕ) (k : ℕ) (pop : List String), pop.Nodup → k ≤ pop.length →
      (sampleGo "" picks k pop).Nodup := by
  intro picks
  induction picks with
  | nil => intro k pop _ _; cases k <;> simp [sampleGo]
  | cons p ps ih =>
    intro k pop hnd hk
    cases k with
    | zero => simp [sampleGo]
    | succ k =>
      have hlen : 0 < pop.length := by omega
      have hi : p % pop.length < pop.length := Nat.mod_lt _ hlen
      have hkle : k ≤ (pop.eraseIdx (p % pop.length)).length := by
        have := List.length_eraseIdx_add_one hi
        omega
      simp only [sampleGo, List.nodup_cons]
      refine ⟨?_, ih k _ (List.Nodup.eraseIdx _ hnd) hkle⟩
      intro hmem
      rcases Nat.eq_zero_or_pos k with hk0 | hk0
      · subst hk0; cases ps <;> simp [sampleGo] at hmem
      · have hsub := sampleGo_subset "" ps k _ hk0 hkle _ hmem
        rw [List.getD_eq_getElem _ _ hi] at hsub
        exact getElem_not_mem_eraseIdx hnd hi hsub

theorem sample_ok_nodup {picks : List ℕ} {k : ℕ} {pop l : List String}
    (hnd : pop.Nodup) (h : sample picks k pop = .ok l) : l.Nodup := by
  obtain ⟨rfl, hk⟩ := sample_ok h
  exact sampleGo_nodup picks k pop hnd hk

theorem sampleGo_length :
    ∀ (picks : List ℕ) (k : ℕ) (pop : List String), k ≤ picks.length → k ≤ pop.length →
      (sampleGo "" picks k pop).length = k := by
  intro picks
  induction picks with
  | nil =>
    intro k pop h _
    have hk0 : k = 0 := by simpa using h
    subst hk0
    simp [sampleGo]
  | cons p ps ih =>
    intro k pop hk hkp
    cases k with
    | zero => simp [sampleGo]
    | succ k =>
      have hlen : 0 < pop.length := by omega
      have hi : p % pop.length < pop.length := Nat.mod_lt _ hlen
      have hkle : k ≤ (pop.eraseIdx (p % pop.length)).length := by
        have := List.length_eraseIdx_add_one hi
        omega
      simp only [sampleGo, List.length_cons]
      rw [ih k _ (by simpa using hk) hkle]

theorem sample_ok_length {picks : List ℕ} {k : ℕ} {pop l : List String}
    (hp : k ≤ picks.length) (h : sample picks k pop = .ok l) : l.length = k := by
  obtain ⟨rfl, hk⟩ := sample_ok h
  exact sampleGo_length picks k pop hp hk

theorem fanOutLoop_amounts (s : String) (apk : ℚ) :
    ∀ (l : List (String × ℚ × ℚ)) (t : ℚ),
      ((fanOutLoop s apk l t).1).map Txn.amount
        = l.map (fun x => round6 (apk * x.2.1))
  | [], _ => rfl
  | (w, v, g) :: rest, t => by
    simp only [fanOutLoop, List.map_cons]
    rw [fanOutLoop_amounts s apk rest (t + g)]

theorem fanInLoop_amounts (a : String) (apk : ℚ) :
    ∀ (l : List (String × ℚ × ℚ)) (t : ℚ),
      ((fanInLoop a apk l t).1).map Txn.amount
        = l.map (fun x => round6 (apk * (1 - x.2.1 / 100)))
  | [], _ => rfl
  | (w, f, g) :: rest, t => by
    simp only [fanInLoop, List.map_cons]
    rw [fanInLoop_amounts a apk rest (t + g)]

theorem fanOutLoop_length (s : String) (apk : ℚ) :
    ∀ (l : List (String × ℚ × ℚ)) (t : ℚ), ((fanOutLoop s apk l t).1).length = l.length
  | [], _ => rfl
  | (w, v, g) :: rest, t => by
    simp only [fanOutLoop, List.length_cons]
    rw [fanOutLoop_length s apk rest (t + g)]

theorem fanOutLoop_shape (s : String) (apk : ℚ) :
    ∀ (l : List (String × ℚ × ℚ)) (t : ℚ), ∀ txn ∈ (fanOutLoop s apk l t).1,
      txn.Source_wallet = s ∧ txn.Dest_wallet ∈ l.map (fun x => x.1) ∧
        txn.token_type = LAUNDERING_TOKEN_TYPE
  | [], _ => by simp [fanOutLoop]
  | (w, v, g) :: rest, t => by
    intro txn htxn
    simp only [fanOutLoop, List.mem_cons] at htxn
    rcases htxn with rfl | htxn
    · exact ⟨rfl, by simp, rfl⟩
    · obtain ⟨h1, h2, h3⟩ := fanOutLoop_shape s apk rest (t + g) txn htxn
      refine ⟨h1, ?_, h3⟩
      simp only [List.map_cons, List.mem_cons]
      right
      exact h2

theorem fanInLoop_shape (a : String) (apk : ℚ) :
    ∀ (l : List (String × ℚ × ℚ)) (t : ℚ), ∀ txn ∈ (fanInLoop a apk l t).1,
      txn.Dest_wallet = a ∧ txn.Source_wallet ∈ l.map (fun x => x.1) ∧
        txn.token_type = LAUNDERING_TOKEN_TYPE
  | [], _ => by simp [fanInLoop]
  | (w, f, g) :: rest, t => by
    intro txn htxn
    simp only [fanInLoop, List.mem_cons] at htxn
    rcases htxn with rfl | htxn
    · exact ⟨rfl, by simp, rfl⟩
    · obtain ⟨h1, h2, h3⟩ := fanInLoop_shape a apk rest (t + g) txn htxn
      refine ⟨h1, ?_, h3⟩
      simp only [List.map_cons, List.mem_cons]
      right
      exact h2

theorem map_zip_snd {α β γ : Type} (f : β → γ) (a : List α) (b : List β)
    (h : b.length ≤ a.length) :
    (a.zip b).map (fun x => f x.2) = b.map f := by
  rw [show (fun x : α × β => f x.2) = f ∘ Prod.snd from rfl, ← List.map_map,
    List.map_snd_zip a b h]

theorem map_zip_fst {α β γ : Type} (f : α → γ) (a : List α) (b : List β)
    (h : a.length ≤ b.length) :
    (a.zip b).map (fun x => f x.1) = a.map f := by
  rw [show (fun x : α × β => f x.1) = f ∘ Prod.fst from rfl, ← List.map_map,
    List.map_fst_zip a b h]

theorem fanOutLoop5_amounts (s : String) (apk : ℚ) :
    ∀ (l : List (String × ℚ × ℚ × String × ℚ)) (t : ℚ),
      ((fanOutLoop5 s apk l t).1).map Txn5.amount
        = l.map (fun x => round2 (apk * x.2.1))
  | [], _ => rfl
  | (w, v, g, h, gas) :: rest, t => by
    simp only [fanOutLoop5, List.map_cons]
    rw [fanOutLoop5_amounts s apk rest (t + g)]

theorem fanInLoop5_amounts (a : String) (apk : ℚ) :
    ∀ (l : List (String × ℚ × String × ℚ)) (t : ℚ),
      ((fanInLoop5 a apk l t).1).map Txn5.amount
        = l.map (fun _ => round2 (apk * (92 / 100)))
  | [], _ => rfl
  | (w, g, h, gas) :: rest, t => by
    simp only [fanInLoop5, List.map_cons]
    rw [fanInLoop5_amounts a apk rest (t + g)]

theorem fanOutLoop5_length (s : String) (apk : ℚ) :
    ∀ (l : List (String × ℚ × ℚ × String × ℚ)) (t : ℚ),
      ((fanOutLoop5 s apk l t).1).length = l.length
  | [], _ => rfl
  | (w, v, g, h, gas) :: rest, t => by
    simp only [fanOutLoop5, List.length_cons]
    rw [fanOutLoop5_length s apk rest (t + g)]

theorem chain_ok_decomp {wallets : List String} {samplePicks : List ℕ} {K : ℕ}
    {initial : ℚ} {variations fees g1 g2 : List ℚ} {pg t0 : ℚ} {txs : List Txn}
    (h : generate_laundering_chain wallets samplePicks K initial variations fees g1 g2 pg t0
          = .ok txs) :
    ∃ available, sample samplePicks (MIN_INTERMEDIARIES + MAX_INTERMEDIARIES + 2) wallets
        = .ok available ∧
      txs = (fanOutLoop (available.getD 0 "") (initial / (K : ℚ))
               (((available.drop 1).take K).zip (variations.zip g1)) t0).1 ++
            (fanInLoop (available.getLastD "") (initial / (K : ℚ))
               (((available.drop 1).take K).zip (fees.zip g2))
               ((fanOutLoop (available.getD 0 "") (initial / (K : ℚ))
                  (((available.drop 1).take K).zip (variations.zip g1)) t0).2 + pg)).1 := by
  rw [generate_laundering_chain] at h
  cases hsa : sample samplePicks (MIN_INTERMEDIARIES + MAX_INTERMEDIARIES + 2) wallets with
  | error e => rw [hsa] at h; simp [Except.bind] at h
  | ok available =>
    rw [hsa] at h
    refine ⟨available, rfl, ?_⟩
    simp only [Except.bind] at h
    exact ((Except.ok.injEq _ _).mp h).symm

theorem chain5_ok_decomp {wallets : List String} {samplePicks : List ℕ} {cfg : Config5}
    {K : ℕ} {initial : ℚ} {fod : List (ℚ × ℚ × String × ℚ)} {fid : List (ℚ × String × ℚ)}
    {t0 : ℚ} {txs : List Txn5}
    (h : generate_laundering_chain5 wallets samplePicks cfg K initial fod fid t0 = .ok txs) :
    ∃ available, sample samplePicks (min (cfg.max_hops + 2) wallets.length) wallets
        = .ok available ∧
      txs = (fanOutLoop5 (available.getD 0 "") (initial / (K : ℚ))
               (((available.drop 1).take K).zip fod) t0).1 ++
            (fanInLoop5 (available.getLastD "") (initial / (K : ℚ))
               (((available.drop 1).take K).zip fid)
               ((fanOutLoop5 (available.getD 0 "") (initial / (K : ℚ))
                  (((available.drop 1).take K).zip fod) t0).2)).1 := by
  rw [generate_laundering_chain5] at h
  cases hsa : sample samplePicks (min (cfg.max_hops + 2) wallets.length) wallets with
  | error e => rw [hsa] at h; simp [Except.bind] at h
  | ok available =>
    rw [hsa] at h
    refine ⟨available, rfl, ?_⟩
    simp only [Except.bind] at h
    exact ((Except.ok.injEq _ _).mp h).symm



/-! ## C1: fan-out/fan-in value conservation -/

theorem chain_fanin_le_fanout :
    ∀ (wallets : List String) (samplePicks : List ℕ) (K : ℕ) (initial : ℚ)
      (variations fees g1 g2 : List ℚ) (pg t0 : ℚ) (txs : List Txn),
      generate_laundering_chain wallets samplePicks K initial variations fees g1 g2 pg t0
        = .ok txs →
      0 ≤ initial → 14 ≤ samplePicks.length → K ≤ 8 →
      variations.length = K → fees.length = K → g1.length = K → g2.length = K →
      List.Forall₂ (fun f v => 1 - f / 100 ≤ v) fees variations →
      ((txs.drop K).map Txn.amount).sum ≤ ((txs.take K).map Txn.amount).sum := by
  intro wallets samplePicks K initial variations fees g1 g2 pg t0 txs
  intro hok hinit hsp hK8 hv hf hg1 hg2 hfor
  obtain ⟨available, hsa, htxs⟩ := chain_ok_decomp hok
  have hal : available.length = 14 := sample_ok_length (by simpa using hsp) hsa
  set apk := initial / (K : ℚ) with hapk
  have hapk0 : 0 ≤ apk := div_nonneg hinit (by positivity)
  set inter := (available.drop 1).take K with hinter
  have hil : inter.length = K := by
    simp [hinter, hal]
    omega
  set fanOut := fanOutLoop (available.getD 0 "") apk (inter.zip (variations.zip g1)) t0
    with hfo
  set fanIn := fanInLoop (available.getLastD "") apk (inter.zip (fees.zip g2)) (fanOut.2 + pg)
    with hfi
  have hfol : fanOut.1.length = K := by
    rw [hfo, fanOutLoop_length, List.length_zip, List.length_zip, hil, hv, hg1]
    omega
  have htake : txs.take K = fanOut.1 := by
    rw [htxs, List.take_left' hfol]
  have hdrop : txs.drop K = fanIn.1 := by
    rw [htxs, List.drop_left' hfol]
  rw [htake, hdrop]
  have hfoamts : fanOut.1.map Txn.amount = variations.map (fun v => round6 (apk * v)) :=
    calc fanOut.1.map Txn.amount
        = (inter.zip (variations.zip g1)).map (fun x => round6 (apk * x.2.1)) := by
          rw [hfo, fanOutLoop_amounts]
      _ = (variations.zip g1).map (fun y => round6 (apk * y.1)) :=
          map_zip_snd (fun y : ℚ × ℚ => round6 (apk * y.1)) inter (variations.zip g1)
            (by rw [List.length_zip, hil, hv, hg1]; omega)
      _ = variations.map (fun v => round6 (apk * v)) :=
          map_zip_fst (fun v : ℚ => round6 (apk * v)) variations g1 (by omega)
  have hfiamts : fanIn.1.map Txn.amount = fees.map (fun f => round6 (apk * (1 - f / 100))) :=
    calc fanIn.1.map Txn.amount
        = (inter.zip (fees.zip g2)).map (fun x => round6 (apk * (1 - x.2.1 / 100))) := by
          rw [hfi, fanInLoop_amounts]
      _ = (fees.zip g2).map (fun y => round6 (apk * (1 - y.1 / 100))) :=
          map_zip_snd (fun y : ℚ × ℚ => round6 (apk * (1 - y.1 / 100))) inter (fees.zip g2)
            (by rw [List.length_zip, hil, hf, hg2]; omega)
      _ = fees.map (fun f => round6 (apk * (1 - f / 100))) :=
          map_zip_fst (fun f : ℚ => round6 (apk * (1 - f / 100))) fees g2 (by omega)
  rw [hfoamts, hfiamts]
  apply List.Forall₂.sum_le_sum
  rw [List.forall₂_map_right_iff, List.forall₂_map_left_iff]
  apply hfor.imp
  intro fe v hle
  exact roundDec_mono 6 (mul_le_mul_of_nonneg_left hle hapk0)

theorem chain5_fanin_le_fanout :
    ∀ (wallets : List String) (samplePicks : List ℕ) (cfg : Config5) (K : ℕ) (initial : ℚ)
      (fod : List (ℚ × ℚ × String × ℚ)) (fid : List (ℚ × String × ℚ)) (t0 : ℚ)
      (txs : List Txn5),
      generate_laundering_chain5 wallets samplePicks cfg K initial fod fid t0 = .ok txs →
      0 ≤ initial →
      min (cfg.max_hops + 2) wallets.length ≤ samplePicks.length →
      K + 1 ≤ min (cfg.max_hops + 2) wallets.length →
      fod.length = K → fid.length = K →
      (∀ d ∈ fod, (0.95 : ℚ) ≤ d.1) →
      ((txs.drop K).map Txn5.amount).sum ≤ ((txs.take K).map Txn5.amount).sum := by
  intro wallets samplePicks cfg K initial fod fid t0 txs
  intro hok hinit hsp hKs hfod hfid hvar
  obtain ⟨available, hsa, htxs⟩ := chain5_ok_decomp hok
  have hal : available.length = min (cfg.max_hops + 2) wallets.length :=
    sample_ok_length hsp hsa
  set apk := initial / (K : ℚ) with hapk
  have hapk0 : 0 ≤ apk := div_nonneg hinit (by positivity)
  set inter := (available.drop 1).take K with hinter
  have hil : inter.length = K := by
    simp [hinter, hal]
    omega
  set fanOut := fanOutLoop5 (available.getD 0 "") apk (inter.zip fod) t0 with hfo
  set fanIn := fanInLoop5 (available.getLastD "") apk (inter.zip fid) fanOut.2 with hfi
  have hfol : fanOut.1.length = K := by
    rw [hfo, fanOutLoop5_length, List.length_zip, hil, hfod]
    omega
  have htake : txs.take K = fanOut.1 := by rw [htxs, List.take_left' hfol]
  have hdrop : txs.drop K = fanIn.1 := by rw [htxs, List.drop_left' hfol]
  rw [htake, hdrop]
  have hfoamts : fanOut.1.map Txn5.amount = fod.map (fun d => round2 (apk * d.1)) :=
    calc fanOut.1.map Txn5.amount
        = (inter.zip fod).map (fun x => round2 (apk * x.2.1)) := by
          rw [hfo, fanOutLoop5_amounts]
      _ = fod.map (fun d => round2 (apk * d.1)) :=
          map_zip_snd (fun d : ℚ × ℚ × String × ℚ => round2 (apk * d.1)) inter fod
            (by omega)
  have hfiamts : fanIn.1.map Txn5.amount = fid.map (fun _ => round2 (apk * (92 / 100))) :=
    calc fanIn.1.map Txn5.amount
        = (inter.zip fid).map (fun x => round2 (apk * (92 / 100))) := by
          rw [hfi, fanInLoop5_amounts]
      _ = fid.map (fun _ => round2 (apk * (92 / 100))) :=
          map_zip_snd (fun _ : ℚ × String × ℚ => round2 (apk * (92 / 100))) inter fid
            (by omega)
  rw [hfoamts, hfiamts]
  have hconst : (fid.map (fun _ => round2 (apk * (92 / 100)))).sum
      = (fod.map (fun _ => round2 (apk * (92 / 100)))).sum := by
    rw [List.map_const', List.map_const', hfod, hfid]
  rw [hconst]
  apply List.sum_le_sum
  intro d hd
  apply roundDec_mono
  apply mul_le_mul_of_nonneg_left _ hapk0
  have := hvar d hd
  norm_num at this ⊢
  linarith

/-- C1 is FALSE as stated.  In `generate_laundering_chain` of
`generate_synthetic_dataset.py`, with 4 intermediaries, initial amount 40,
every fan-out variation drawn at its admissible minimum 0.95 and every fee
drawn at its admissible minimum 1 %, the four fan-out records total 38
while the four fan-in records total 39.6: the fan-in amounts are computed
from the un-jittered even split `amount_per_intermediate`, not from what
each intermediary actually received, so fan-in can exceed fan-out. -/
theorem C1_counterexample :
    ¬ (((((generate_laundering_chain chainPoolA (List.replicate 14 0) 4 40
            [0.95, 0.95, 0.95, 0.95] [1, 1, 1, 1] [5, 5, 5, 5] [5, 5, 5, 5]
            60 0).toOption.getD []).drop 4).map Txn.amount).sum ≤
        ((((generate_laundering_chain chainPoolA (List.replicate 14 0) 4 40
            [0.95, 0.95, 0.95, 0.95] [1, 1, 1, 1] [5, 5, 5, 5] [5, 5, 5, 5]
            60 0).toOption.getD []).take 4).map Txn.amount).sum) := by
  simp only [chainPoolA, generate_laundering_chain, sample, sampleGo, List.replicate,
    MIN_INTERMEDIARIES, MAX_INTERMEDIARIES]
  norm_num [Except.toOption]
  simp only [fanOutLoop, fanInLoop]
  norm_num [round6, roundDec, round_eq]

/-- C1 (amended): fees can only reduce value relative to the *un-jittered*
split, so the fan-in total is at most the fan-out total whenever each
leg's fan-out variation is at least its fee-retained fraction
`1 - fee/100` (first conjunct, `generate_synthetic_dataset.py`); in the
`generate_5_datasets.py` variant, whose fan-out variation is drawn from
[0.95, 1.0] and whose fan-in retains the fixed fraction 0.92 < 0.95, the
fan-in total never exceeds the fan-out total (second conjunct). -/
theorem C1_amended_holds :
    (∀ (wallets : List String) (samplePicks : List ℕ) (K : ℕ) (initial : ℚ)
       (variations fees g1 g2 : List ℚ) (pg t0 : ℚ) (txs : List Txn),
       generate_laundering_chain wallets samplePicks K initial variations fees g1 g2 pg t0
         = .ok txs →
       0 ≤ initial → 14 ≤ samplePicks.length → K ≤ 8 →
       variations.length = K → fees.length = K → g1.length = K → g2.length = K →
       List.Forall₂ (fun f v => 1 - f / 100 ≤ v) fees variations →
       ((txs.drop K).map Txn.amount).sum ≤ ((txs.take K).map Txn.amount).sum) ∧
    (∀ (wallets : List String) (samplePicks : List ℕ) (cfg : Config5) (K : ℕ) (initial : ℚ)
       (fod : List (ℚ × ℚ × String × ℚ)) (fid : List (ℚ × String × ℚ)) (t0 : ℚ)
       (txs : List Txn5),
       generate_laundering_chain5 wallets samplePicks cfg K initial fod fid t0 = .ok txs →
       0 ≤ initial →
       min (cfg.max_hops + 2) wallets.length ≤ samplePicks.length →
       K + 1 ≤ min (cfg.max_hops + 2) wallets.length →
       fod.length = K → fid.length = K →
       (∀ d ∈ fod, (0.95 : ℚ) ≤ d.1) →
       ((txs.drop K).map Txn5.amount).sum ≤ ((txs.take K).map Txn5.amount).sum) :=
  ⟨chain_fanin_le_fanout, chain5_fanin_le_fanout⟩

set_option maxRecDepth 10000 in
theorem C1_amended_holds_witness :
    (((chainTxsA.drop 4).map Txn.amount).sum ≤ ((chainTxsA.take 4).map Txn.amount).sum) ∧
    (((chainTxsB.drop 4).map Txn5.amount).sum ≤ ((chainTxsB.take 4).map Txn5.amount).sum) := by
  constructor
  · apply C1_amended_holds.1 chainPoolA (List.replicate 14 0) 4 40
      [1.05, 1.05, 1.05, 1.05] [5, 5, 5, 5] [5, 5, 5, 5] [5, 5, 5, 5] 60 0 chainTxsA
    · simp only [chainPoolA, chainTxsA, generate_laundering_chain, sample, sampleGo,
        List.replicate, MIN_INTERMEDIARIES, MAX_INTERMEDIARIES]
      norm_num [Except.bind]
      simp only [fanOutLoop, fanInLoop]
      norm_num [round6, roundDec, round_eq, LAUNDERING_TOKEN_TYPE]
    · norm_num
    · simp
    · norm_num
    · rfl
    · rfl
    · rfl
    · rfl
    · norm_num [List.forall₂_cons]
  · apply C1_amended_holds.2 ["b0","b1","b2","b3","b4","b5"] (List.replicate 6 0)
      smallNetworkCfg 4 40
      [(0.95, 5, "h", 0.001), (0.95, 5, "h", 0.001), (0.95, 5, "h", 0.001), (0.95, 5, "h", 0.001)]
      [(5, "h", 0.001), (5, "h", 0.001), (5, "h", 0.001), (5, "h", 0.001)] 0 chainTxsB
    · simp only [smallNetworkCfg, chainTxsB, generate_laundering_chain5, sample, sampleGo,
        List.replicate]
      norm_num [Except.bind]
      simp only [fanOutLoop5, fanInLoop5]
      norm_num [round2, round4, roundDec, round_eq]
      decide
    · norm_num
    · simp [smallNetworkCfg]
    · simp [smallNetworkCfg]
    · rfl
    · rfl
    · intro d hd
      fin_cases hd <;> norm_num


/-! ## Sortedness and stability of the global sort -/

theorem sortByTimestamp_sorted (l : List Txn) :
    (sortByTimestamp l).Pairwise (fun a b => a.timestamp ≤ b.timestamp) := by
  have h := @List.sorted_mergeSort Txn
    (fun a b : Txn => decide (a.timestamp ≤ b.timestamp))
    (fun a b c hab hbc => by
      simp only [decide_eq_true_eq] at hab hbc ⊢
      linarith)
    (fun a b => by
      simp only [Bool.or_eq_true, decide_eq_true_eq]
      exact le_total _ _)
    l
  exact h.imp (fun hab => by simpa using hab)

theorem sortByTimestamp_stable (l : List Txn) (t : ℚ) :
    (sortByTimestamp l).filter (fun r => decide (r.timestamp = t))
      = l.filter (fun r => decide (r.timestamp = t)) := by
  set p : Txn → Bool := fun r => decide (r.timestamp = t) with hp
  have hpair : (l.filter p).Pairwise (fun a b : Txn => decide (a.timestamp ≤ b.timestamp)) := by
    apply List.pairwise_of_forall_mem_list
    intro a ha b hb
    have ha2 := (List.mem_filter.mp ha).2
    have hb2 := (List.mem_filter.mp hb).2
    rw [hp] at ha2 hb2
    simp only [decide_eq_true_eq] at ha2 hb2 ⊢
    rw [ha2, hb2]
  have h1 : List.Sublist (l.filter p) (sortByTimestamp l) :=
    List.sublist_mergeSort
      (fun a b c hab hbc => by
        simp only [decide_eq_true_eq] at hab hbc ⊢
        linarith)
      (fun a b => by
        simp only [Bool.or_eq_true, decide_eq_true_eq]
        exact le_total _ _)
      hpair (List.filter_sublist l)
  have h2 : List.Sublist (l.filter p) ((sortByTimestamp l).filter p) := by
    have := h1.filter p
    rwa [List.filter_filter, show (fun a => p a && p a) = p from funext fun a => Bool.and_self _]
      at this
  have h3 : ((sortByTimestamp l).filter p).length = (l.filter p).length :=
    ((List.mergeSort_perm l _).filter p).length_eq
  exact (h2.eq_of_length h3.symm).symm

/-! ## C2: background count -/

theorem dataset_length :
    ∀ (target num_wallets : ℕ) (u : ℕ → String) (patterns : List String → List Txn)
      (nd : ℕ → List String → Txn),
      (generate_dataset target num_wallets u patterns nd).length
        = (patterns (create_wallet_pool num_wallets u)).length
          + ((target : ℤ) - (patterns (create_wallet_pool num_wallets u)).length).toNat := by
  intro target num_wallets u patterns nd
  simp [generate_dataset, sortByTimestamp]

/-- C2 is FALSE as stated: the assembler computes
`normal_count = target - laundering_count`, but when the difference is
negative it does not fail — `range(normal_count)` is empty, so it silently
emits the suspicious records with zero background records.  Concretely,
with target 10 and 26 suspicious records the run completes normally and
returns a 26-record dataset. -/
theorem C2_counterexample :
    (generate_dataset 10 2 (fun _ => "u")
      (fun _ => List.replicate 26 ⟨"s", "d", 0, 1, "ETH"⟩)
      (fun _ _ => ⟨"x", "y", 0, 1, "ETH"⟩)).length = 26 := by
  rw [dataset_length]
  simp

/-- C2 (amended): the background count equals `target − suspicious_count`
whenever the suspicious records fit in the target (so the assembled
dataset has exactly `target` records, e.g. 1000 − 26 = 974 background
records in the spec scenario); when the difference is negative the
assembler neither fails nor records a negative count — it silently clamps
the background to zero records and returns just the suspicious records. -/
theorem C2_amended_holds :
    ∀ (target num_wallets : ℕ) (u : ℕ → String) (patterns : List String → List Txn)
      (nd : ℕ → List String → Txn),
      ((patterns (create_wallet_pool num_wallets u)).length ≤ target →
        (generate_dataset target num_wallets u patterns nd).length = target) ∧
      (target < (patterns (create_wallet_pool num_wallets u)).length →
        (generate_dataset target num_wallets u patterns nd).length
          = (patterns (create_wallet_pool num_wallets u)).length) := by
  intro target num_wallets u patterns nd
  constructor
  · intro hle
    rw [dataset_length]
    omega
  · intro hlt
    rw [dataset_length]
    omega

theorem C2_amended_holds_witness :
    (generate_dataset 1000 2 (fun _ => "u")
      (fun _ => List.replicate 26 ⟨"s", "d", 0, 1, "ETH"⟩)
      (fun _ _ => ⟨"x", "y", 0, 1, "ETH"⟩)).length = 1000 := by
  apply (C2_amended_holds 1000 2 (fun _ => "u")
      (fun _ => List.replicate 26 ⟨"s", "d", 0, 1, "ETH"⟩)
      (fun _ _ => ⟨"x", "y", 0, 1, "ETH"⟩)).1
  simp

/-- C3: in the assembled dataset (suspicious-pattern records plus
background records, after the final global sort) the timestamps are
non-decreasing across the whole sequence, and the sort is stable with
respect to insertion order on ties: for every timestamp value, the
records carrying it appear in the output exactly as they appear in the
pre-sort concatenation (pattern records in generation order, then
background records). -/
theorem C3_holds :
    ∀ (target num_wallets : ℕ) (u : ℕ → String) (patterns : List String → List Txn)
      (nd : ℕ → List String → Txn),
      (generate_dataset target num_wallets u patterns nd).Pairwise
        (fun a b => a.timestamp ≤ b.timestamp) ∧
      ∀ t : ℚ,
        (generate_dataset target num_wallets u patterns nd).filter
            (fun r => decide (r.timestamp = t))
          = (patterns (create_wallet_pool num_wallets u) ++
              (List.range ((target : ℤ)
                  - (patterns (create_wallet_pool num_wallets u)).length).toNat).map
                (fun i => nd i (create_wallet_pool num_wallets u))).filter
            (fun r => decide (r.timestamp = t)) := by
  intro target num_wallets u patterns nd
  constructor
  · exact sortByTimestamp_sorted _
  · intro t
    exact sortByTimestamp_stable _ t


/-! ## C7: circular pattern shape -/

theorem circularLoop_length (c : List String) (L : ℕ) :
    ∀ (fg : List (ℚ × ℚ)) (i : ℕ) (cur t : ℚ),
      (circularLoop c L fg i cur t).length = fg.length
  | [], _, _, _ => rfl
  | (f, g) :: rest, i, cur, t => by
    simp only [circularLoop, List.length_cons]
    rw [circularLoop_length c L rest (i + 1) (cur * (1 - f)) (t + g)]

theorem circularLoop_src_dst (c : List String) (L : ℕ) :
    ∀ (fg : List (ℚ × ℚ)) (i : ℕ) (cur t : ℚ) (j : ℕ)
      (h : j < (circularLoop c L fg i cur t).length),
      (circularLoop c L fg i cur t)[j].Source_wallet = c.getD (i + j) "" ∧
      (circularLoop c L fg i cur t)[j].Dest_wallet = c.getD ((i + j + 1) % L) ""
  | [], _, _, _, j, h => by simp [circularLoop] at h
  | (f, g) :: rest, i, cur, t, 0, h => by
    simp [circularLoop]
  | (f, g) :: rest, i, cur, t, j + 1, h => by
    simp only [circularLoop, List.getElem_cons_succ]
    have := circularLoop_src_dst c L rest (i + 1) (cur * (1 - f)) (t + g) j
      (by simpa [circularLoop] using h)
    constructor
    · rw [this.1]
      congr 1
      omega
    · rw [this.2]
      congr 2
      omega

theorem circularLoop_antitone (c : List String) (L : ℕ) :
    ∀ (fg : List (ℚ × ℚ)) (i : ℕ) (cur t : ℚ), 0 ≤ cur →
      (∀ p ∈ fg, 0 ≤ p.1 ∧ p.1 ≤ 1) →
      (circularLoop c L fg i cur t).Chain' (fun a b => b.amount ≤ a.amount) ∧
      (∀ hd ∈ (circularLoop c L fg i cur t).head?, hd.amount ≤ round6 cur)
  | [], i, cur, t, hcur, hfg => by
    refine ⟨List.chain'_nil, ?_⟩
    intro hd hhd
    simp [circularLoop] at hhd
  | (f, g) :: rest, i, cur, t, hcur, hfg => by
    have hf := hfg (f, g) (List.mem_cons_self _ _)
    have hcur2 : 0 ≤ cur * (1 - f) := by nlinarith [hf.1, hf.2]
    have ih := circularLoop_antitone c L rest (i + 1) (cur * (1 - f)) (t + g) hcur2
      (fun p hp => hfg p (List.mem_cons_of_mem _ hp))
    constructor
    · rw [show circularLoop c L ((f, g) :: rest) i cur t
          = { Source_wallet := c.getD i "",
              Dest_wallet := c.getD ((i + 1) % L) "",
              timestamp := t, amount := round6 (cur * (1 - f)),
              token_type := LAUNDERING_TOKEN_TYPE } ::
            circularLoop c L rest (i + 1) (cur * (1 - f)) (t + g) from rfl]
      rw [List.chain'_cons']
      exact ⟨fun y hy => ih.2 y hy, ih.1⟩
    · intro hd hhd
      simp only [circularLoop, List.head?_cons, Option.mem_def, Option.some.injEq] at hhd
      rw [← hhd]
      exact roundDec_mono 6 (by nlinarith [hf.1])

/-- C7: for every successful run of `generate_circular_pattern` with cycle
length `L` between 3 and 6, exactly `L` records are emitted, the last
record's destination is the first record's source (the cycle closes), and
the recorded amount is non-increasing hop over hop. -/
theorem C7_holds :
    ∀ (wallets : List String) (L : ℕ) (picks : List ℕ) (initial : ℚ)
      (feeGaps : List (ℚ × ℚ)) (t0 : ℚ) (txs : List Txn),
      generate_circular_pattern wallets L picks initial feeGaps t0 = .ok txs →
      3 ≤ L → L ≤ 6 → feeGaps.length = L → 0 ≤ initial →
      (∀ p ∈ feeGaps, (0.01 : ℚ) ≤ p.1 ∧ p.1 ≤ 0.03) →
      txs.length = L ∧
      (txs.getLast?).map Txn.Dest_wallet = (txs.head?).map Txn.Source_wallet ∧
      txs.Chain' (fun a b => b.amount ≤ a.amount) := by
  intro wallets L picks initial feeGaps t0 txs hok h3 h6 hlen hinit hfg
  rw [generate_circular_pattern] at hok
  cases hsa : sample picks L wallets with
  | error e => rw [hsa] at hok; simp [Except.bind] at hok
  | ok cycle_wallets =>
    rw [hsa] at hok
    have hok2 : (Except.ok (circularLoop cycle_wallets L feeGaps 0 initial t0)
        : Except String (List Txn)) = .ok txs := hok
    have htxs : txs = circularLoop cycle_wallets L feeGaps 0 initial t0 :=
      ((Except.ok.injEq _ _).mp hok2).symm
    subst htxs
    have hL : (circularLoop cycle_wallets L feeGaps 0 initial t0).length = L := by
      rw [circularLoop_length, hlen]
    refine ⟨hL, ?_, ?_⟩
    · have h0 : 0 < (circularLoop cycle_wallets L feeGaps 0 initial t0).length := by omega
      have hlast : (circularLoop cycle_wallets L feeGaps 0 initial t0).getLast?
          = (circularLoop cycle_wallets L feeGaps 0 initial t0)[L - 1]? := by
        rw [List.getLast?_eq_getElem?, hL]
      have hgl : (circularLoop cycle_wallets L feeGaps 0 initial t0)[L - 1]?
          = some ((circularLoop cycle_wallets L feeGaps 0 initial t0)[L - 1]) :=
        List.getElem?_eq_getElem (by omega)
      have hhead : (circularLoop cycle_wallets L feeGaps 0 initial t0).head?
          = some ((circularLoop cycle_wallets L feeGaps 0 initial t0)[0]) := by
        rw [List.head?_eq_getElem?, List.getElem?_eq_getElem h0]
      rw [hlast, hgl, hhead]
      simp only [Option.map_some']
      have hfirst := circularLoop_src_dst cycle_wallets L feeGaps 0 initial t0 0 h0
      have hlst := circularLoop_src_dst cycle_wallets L feeGaps 0 initial t0 (L - 1) (by omega)
      rw [hlst.2, hfirst.1]
      have h1 : 0 + (L - 1) + 1 = L := by omega
      rw [h1, Nat.mod_self]
    · exact (circularLoop_antitone cycle_wallets L feeGaps 0 initial t0 hinit
        (fun p hp => ⟨by linarith [(hfg p hp).1], by linarith [(hfg p hp).2]⟩)).1


theorem C7_holds_witness :
    circTxs.length = 3 ∧
    (circTxs.getLast?).map Txn.Dest_wallet = (circTxs.head?).map Txn.Source_wallet ∧
    circTxs.Chain' (fun a b => b.amount ≤ a.amount) := by
  apply C7_holds ["c0", "c1", "c2"] 3 (List.replicate 3 0) 40
    [(0.02, 30), (0.02, 30), (0.02, 30)] 0 circTxs
  · simp only [generate_circular_pattern, sample, sampleGo, List.replicate, circTxs]
    norm_num [Except.bind]
    simp only [circularLoop]
    norm_num [round6, roundDec, round_eq, LAUNDERING_TOKEN_TYPE]
  · norm_num
  · norm_num
  · rfl
  · norm_num
  · intro p hp
    fin_cases hp <;> norm_num


/-! ## Sum helpers -/

theorem sum_map_sub_const (l : List ℚ) (c : ℚ) :
    (l.map (fun a => a - c)).sum = l.sum - l.length * c := by
  induction l with
  | nil => simp
  | cons a t ih =>
    simp only [List.map_cons, List.sum_cons, List.length_cons, ih]
    push_cast
    ring

theorem sum_map_add_const (l : List ℚ) (c : ℚ) :
    (l.map (fun a => a + c)).sum = l.sum + l.length * c := by
  induction l with
  | nil => simp
  | cons a t ih =>
    simp only [List.map_cons, List.sum_cons, List.length_cons, ih]
    push_cast
    ring

theorem sum_map_affine (a b : ℚ) (l : List ℚ) :
    (l.map (fun x => a * x + b)).sum = a * l.sum + l.length * b := by
  induction l with
  | nil => simp
  | cons x t ih =>
    simp only [List.map_cons, List.sum_cons, List.length_cons, ih]
    push_cast
    ring

theorem sum_map_mul_const (c : ℚ) (l : List ℚ) :
    (l.map (fun x => c * x)).sum = c * l.sum := by
  induction l with
  | nil => simp
  | cons a t ih =>
    simp only [List.map_cons, List.sum_cons, ih]
    ring

theorem sum_le_length_mul (l : List ℚ) (c : ℚ) (h : ∀ x ∈ l, x ≤ c) :
    l.sum ≤ l.length * c := by
  induction l with
  | nil => simp
  | cons a t ih =>
    simp only [List.sum_cons, List.length_cons]
    have ha := h a (List.mem_cons_self _ _)
    have ht := ih (fun x hx => h x (List.mem_cons_of_mem _ hx))
    push_cast
    linarith

theorem length_mul_le_sum (l : List ℚ) (c : ℚ) (h : ∀ x ∈ l, c ≤ x) :
    l.length * c ≤ l.sum := by
  induction l with
  | nil => simp
  | cons a t ih =>
    simp only [List.sum_cons, List.length_cons]
    have ha := h a (List.mem_cons_self _ _)
    have ht := ih (fun x hx => h x (List.mem_cons_of_mem _ hx))
    push_cast
    linarith

/-! ## C5: pass-through inflow bounds outflow -/

theorem ptInflow_amounts (pt : String) :
    ∀ (l : List (String × ℚ × ℚ)) (t total : ℚ),
      ((ptInflow pt l t total).1).map Txn.amount = l.map (fun x => round6 x.2.1)
  | [], _, _ => rfl
  | (s, a, g) :: rest, t, total => by
    simp only [ptInflow, List.map_cons]
    rw [ptInflow_amounts pt rest (t + g) (total + a)]

theorem ptInflow_total (pt : String) :
    ∀ (l : List (String × ℚ × ℚ)) (t total : ℚ),
      (ptInflow pt l t total).2.2 = total + (l.map (fun x => x.2.1)).sum
  | [], _, _ => by simp [ptInflow]
  | (s, a, g) :: rest, t, total => by
    simp only [ptInflow, List.map_cons, List.sum_cons]
    rw [ptInflow_total pt rest (t + g) (total + a)]
    ring

theorem ptInflow_length (pt : String) :
    ∀ (l : List (String × ℚ × ℚ)) (t total : ℚ), ((ptInflow pt l t total).1).length = l.length
  | [], _, _ => rfl
  | (s, a, g) :: rest, t, total => by
    simp only [ptInflow, List.length_cons]
    rw [ptInflow_length pt rest (t + g) (total + a)]

theorem ptOutflow_amounts (pt : String) (apd : ℚ) :
    ∀ (l : List (String × ℚ × ℚ)) (t : ℚ),
      ((ptOutflow pt apd l t).1).map Txn.amount = l.map (fun x => round6 (apd * x.2.1))
  | [], _ => rfl
  | (d, j, g) :: rest, t => by
    simp only [ptOutflow, List.map_cons]
    rw [ptOutflow_amounts pt apd rest (t + g)]

theorem pt_ok_decomp {wallets : List String} {ptPick num_sources num_dests : ℕ}
    {srcPicks dstPicks : List ℕ} {inAmounts inGaps : List ℚ} {pause outflow_ratio : ℚ}
    {outJitters outGaps : List ℚ} {t0 : ℚ} {txs : List Txn}
    (h : generate_passthrough_pattern wallets ptPick num_sources num_dests srcPicks dstPicks
          inAmounts inGaps pause outflow_ratio outJitters outGaps t0 = .ok txs) :
    ∃ pt sources dests,
      choice ptPick wallets = .ok pt ∧
      sample srcPicks num_sources (wallets.filter (fun w => w ≠ pt)) = .ok sources ∧
      sample dstPicks num_dests (wallets.filter (fun w => w ≠ pt ∧ w ∉ sources))
        = .ok dests ∧
      txs = (ptInflow pt (sources.zip (inAmounts.zip inGaps)) t0 0).1 ++
            (ptOutflow pt
              ((ptInflow pt (sources.zip (inAmounts.zip inGaps)) t0 0).2.2
                * outflow_ratio / (num_dests : ℚ))
              (dests.zip (outJitters.zip outGaps))
              ((ptInflow pt (sources.zip (inAmounts.zip inGaps)) t0 0).2.1 + pause)).1 := by
  rw [generate_passthrough_pattern] at h
  cases hc : choice ptPick wallets with
  | error e =>
    rw [hc] at h
    simp only [exceptError_bind] at h
    exact absurd h (by simp)
  | ok pt =>
    rw [hc] at h
    simp only [exceptOk_bind] at h
    cases hs1 : sample srcPicks num_sources
        (wallets.filter (fun w => decide (w ≠ pt))) with
    | error e =>
      rw [hs1] at h
      simp only [exceptError_bind] at h
      exact absurd h (by simp)
    | ok sources =>
      rw [hs1] at h
      simp only [exceptOk_bind] at h
      cases hs2 : sample dstPicks num_dests
          (wallets.filter (fun w => decide (w ≠ pt ∧ w ∉ sources))) with
      | error e =>
        rw [hs2] at h
        simp only [exceptError_bind] at h
        exact absurd h (by simp)
      | ok dests =>
        rw [hs2] at h
        simp only [exceptOk_bind] at h
        refine ⟨pt, sources, dests, rfl, hs1, hs2, ?_⟩
        exact ((Except.ok.injEq _ _).mp h).symm

set_option maxHeartbeats 1000000 in
/-- C5: in every successful run of `generate_passthrough_pattern` (with the
draws inside their documented ranges: 3–6 sources and destinations,
inflow amounts in [15, 40], outflow ratio in [0.90, 0.95], jitters in
[0.95, 1.05]), the total recorded outflow of the pass-through wallet — the
amounts of the records it sends — never exceeds its total recorded inflow.
Rounding to 6 decimals introduces at most 5·10⁻⁷ per record, absorbed by
the at-least-0.25% retained margin. -/
theorem C5_holds :
    ∀ (wallets : List String) (ptPick num_sources num_dests : ℕ)
      (srcPicks dstPicks : List ℕ) (inAmounts inGaps : List ℚ)
      (pause outflow_ratio : ℚ) (outJitters outGaps : List ℚ) (t0 : ℚ) (txs : List Txn),
      generate_passthrough_pattern wallets ptPick num_sources num_dests srcPicks dstPicks
        inAmounts inGaps pause outflow_ratio outJitters outGaps t0 = .ok txs →
      num_sources ≤ srcPicks.length → num_dests ≤ dstPicks.length →
      3 ≤ num_sources → num_sources ≤ 6 → 3 ≤ num_dests → num_dests ≤ 6 →
      inAmounts.length = num_sources → inGaps.length = num_sources →
      outJitters.length = num_dests → outGaps.length = num_dests →
      (∀ a ∈ inAmounts, (15 : ℚ) ≤ a ∧ a ≤ 40) →
      (9 / 10 : ℚ) ≤ outflow_ratio → outflow_ratio ≤ 19 / 20 →
      (∀ j ∈ outJitters, (19 / 20 : ℚ) ≤ j ∧ j ≤ 21 / 20) →
      ((txs.drop num_sources).map Txn.amount).sum
        ≤ ((txs.take num_sources).map Txn.amount).sum := by
  intro wallets ptPick ns nd srcPicks dstPicks inAmounts inGaps pause ratio outJitters
    outGaps t0 txs hok hsp hdp hns3 hns6 hnd3 hnd6 hia hig hoj hog hamt hr1 hr2 hjit
  obtain ⟨pt, sources, dests, hc, hs1, hs2, htxs⟩ := pt_ok_decomp hok
  have hsl : sources.length = ns := sample_ok_length hsp hs1
  have hdl : dests.length = nd := sample_ok_length hdp hs2
  set inflow := ptInflow pt (sources.zip (inAmounts.zip inGaps)) t0 0 with hinf
  set apd := inflow.2.2 * ratio / (nd : ℚ) with hapd
  set outflow := ptOutflow pt apd (dests.zip (outJitters.zip outGaps))
    (inflow.2.1 + pause) with houtf
  have hil : inflow.1.length = ns := by
    rw [hinf, ptInflow_length, List.length_zip, List.length_zip, hsl, hia, hig]
    omega
  have htake : txs.take ns = inflow.1 := by rw [htxs, List.take_left' hil]
  have hdrop : txs.drop ns = outflow.1 := by rw [htxs, List.drop_left' hil]
  rw [htake, hdrop]
  -- recorded inflow amounts
  have hinamts : inflow.1.map Txn.amount = inAmounts.map (fun a => round6 a) :=
    calc inflow.1.map Txn.amount
        = (sources.zip (inAmounts.zip inGaps)).map (fun x => round6 x.2.1) := by
          rw [hinf, ptInflow_amounts]
      _ = (inAmounts.zip inGaps).map (fun y => round6 y.1) :=
          map_zip_snd (fun y : ℚ × ℚ => round6 y.1) sources (inAmounts.zip inGaps)
            (by rw [List.length_zip, hsl, hia, hig]; omega)
      _ = inAmounts.map (fun a => round6 a) :=
          map_zip_fst (fun a : ℚ => round6 a) inAmounts inGaps (by omega)
  have houtamts : outflow.1.map Txn.amount = outJitters.map (fun j => round6 (apd * j)) :=
    calc outflow.1.map Txn.amount
        = (dests.zip (outJitters.zip outGaps)).map (fun x => round6 (apd * x.2.1)) := by
          rw [houtf, ptOutflow_amounts]
      _ = (outJitters.zip outGaps).map (fun y => round6 (apd * y.1)) :=
          map_zip_snd (fun y : ℚ × ℚ => round6 (apd * y.1)) dests (outJitters.zip outGaps)
            (by rw [List.length_zip, hdl, hoj, hog]; omega)
      _ = outJitters.map (fun j => round6 (apd * j)) :=
          map_zip_fst (fun j : ℚ => round6 (apd * j)) outJitters outGaps (by omega)
  rw [hinamts, houtamts]
  -- the raw inflow total
  have htotal : inflow.2.2 = inAmounts.sum := by
    rw [hinf, ptInflow_total]
    rw [show (fun x : String × ℚ × ℚ => x.2.1) = (fun y : ℚ × ℚ => y.1) ∘ Prod.snd from rfl,
      ← List.map_map, List.map_snd_zip _ _ (by rw [List.length_zip, hsl, hia, hig]; omega),
      show ((fun y : ℚ × ℚ => y.1) : ℚ × ℚ → ℚ) = Prod.fst from rfl,
      List.map_fst_zip _ _ (by omega)]
    simp
  set raw := inAmounts.sum with hraw
  set eps : ℚ := 1 / 2000000 with heps
  -- bounds on the raw total
  have hraw15 : (15 : ℚ) * ns ≤ raw := by
    have := length_mul_le_sum inAmounts 15 (fun x hx => (hamt x hx).1)
    rw [hia] at this
    linarith
  have hraw0 : (0 : ℚ) ≤ raw := by
    have hc15 : (0 : ℚ) ≤ 15 * ns := by positivity
    linarith
  -- recorded inflow is at least raw - ns * eps
  have hinlow : raw - ns * eps ≤ (inAmounts.map (fun a => round6 a)).sum := by
    have h1 : (inAmounts.map (fun a => a - eps)).sum ≤ (inAmounts.map (fun a => round6 a)).sum := by
      apply List.sum_le_sum
      intro a ha
      have := sub_le_roundDec 6 a
      rw [round6]
      rw [heps]
      norm_num at this ⊢
      linarith
    rw [sum_map_sub_const, hia] at h1
    linarith
  -- recorded outflow is at most apd * (sum of jitters) + nd * eps
  have hratio0 : (0 : ℚ) ≤ ratio := by linarith
  have hapd0 : 0 ≤ apd := by
    rw [hapd, htotal]
    exact div_nonneg (mul_nonneg hraw0 hratio0) (Nat.cast_nonneg nd)
  have houthigh : (outJitters.map (fun j => round6 (apd * j))).sum
      ≤ apd * outJitters.sum + nd * eps := by
    have h1 : (outJitters.map (fun j => round6 (apd * j))).sum
        ≤ (outJitters.map (fun j => apd * j + eps)).sum := by
      apply List.sum_le_sum
      intro j hj
      have := roundDec_le_add 6 (apd * j)
      rw [round6, heps]
      norm_num at this ⊢
      linarith
    have h2 : (outJitters.map (fun j => apd * j + eps)).sum
        = apd * outJitters.sum + outJitters.length * eps := sum_map_affine apd eps outJitters
    rw [h2, hoj] at h1
    exact h1
  have hjitsum : outJitters.sum ≤ nd * (21 / 20) := by
    have := sum_le_length_mul outJitters (21 / 20) (fun x hx => (hjit x hx).2)
    rw [hoj] at this
    linarith
  -- apd * nd = raw * ratio
  have hnd0 : (0 : ℚ) < (nd : ℚ) := by
    have : (3 : ℚ) ≤ (nd : ℚ) := by exact_mod_cast hnd3
    linarith
  have hapdnd : apd * nd = raw * ratio := by
    rw [hapd, htotal]
    exact div_mul_cancel₀ _ (ne_of_gt hnd0)
  have hout2 : apd * outJitters.sum ≤ (21 / 20) * (raw * ratio) := by
    calc apd * outJitters.sum ≤ apd * (nd * (21 / 20)) :=
          mul_le_mul_of_nonneg_left hjitsum hapd0
      _ = (21 / 20) * (apd * nd) := by ring
      _ = (21 / 20) * (raw * ratio) := by rw [hapdnd]
  have hrr : raw * ratio ≤ raw * (19 / 20) := mul_le_mul_of_nonneg_left hr2 hraw0
  -- cast bounds on the counts
  have hnsq : ((ns : ℚ)) ≤ 6 := by exact_mod_cast hns6
  have hnsq1 : (1 : ℚ) ≤ (ns : ℚ) := by
    have : (3 : ℚ) ≤ (ns : ℚ) := by exact_mod_cast hns3
    linarith
  have hndq : ((nd : ℚ)) ≤ 6 := by exact_mod_cast hnd6
  have hraw15q : (15 : ℚ) ≤ raw := by nlinarith
  have heps0 : (0 : ℚ) < eps := by rw [heps]; norm_num
  calc (outJitters.map (fun j => round6 (apd * j))).sum
      ≤ apd * outJitters.sum + nd * eps := houthigh
    _ ≤ (21 / 20) * (raw * (19 / 20)) + 6 * eps := by nlinarith
    _ ≤ raw - 6 * eps := by
        rw [heps]
        norm_num
        linarith
    _ ≤ raw - ns * eps := by nlinarith
    _ ≤ (inAmounts.map (fun a => round6 a)).sum := hinlow


theorem C5_holds_witness :
    ((ptTxs.drop 3).map Txn.amount).sum ≤ ((ptTxs.take 3).map Txn.amount).sum := by
  apply C5_holds ["p", "s1", "s2", "s3", "d1", "d2", "d3"] 0 3 3 [0, 0, 0] [0, 0, 0]
    [20, 20, 20] [10, 10, 10] 30 (9 / 10) [1, 1, 1] [10, 10, 10] 0 ptTxs
  · simp only [ptTxs, generate_passthrough_pattern, choice, sample, sampleGo]
    norm_num [exceptOk_bind]
    simp [exceptOk_bind]
    simp only [exceptOk_bind, exceptMap_ok, ptInflow, ptOutflow]
    norm_num [round6, roundDec, round_eq, LAUNDERING_TOKEN_TYPE]
  · norm_num
  · norm_num
  · norm_num
  · norm_num
  · norm_num
  · norm_num
  · rfl
  · rfl
  · rfl
  · rfl
  · intro a ha
    fin_cases ha <;> norm_num
  · norm_num
  · norm_num
  · intro j hj
    fin_cases hj <;> norm_num


/-! ## Filter length bookkeeping -/

theorem length_filter_add_length_filter_not (l : List String) (p : String → Bool) :
    (l.filter p).length + (l.filter (fun w => !p w)).length = l.length := by
  induction l with
  | nil => rfl
  | cons a t ih =>
    by_cases h : p a <;> simp [List.filter_cons, h, ← ih] <;> omega

theorem length_filter_not_mem (l ex : List String) (hl : l.Nodup) (hex : ex.Nodup)
    (hsub : ∀ e ∈ ex, e ∈ l) :
    (l.filter (fun w => !decide (w ∈ ex))).length = l.length - ex.length := by
  have hperm : (l.filter (fun w => decide (w ∈ ex))).Perm ex := by
    rw [List.perm_iff_count]
    intro a
    by_cases ha : a ∈ ex
    · rw [List.count_filter (by simpa using ha)]
      rw [List.count_eq_one_of_mem hl (hsub a ha), List.count_eq_one_of_mem hex ha]
    · rw [List.count_eq_zero.mpr ha, List.count_eq_zero.mpr]
      intro hmem
      exact ha (by simpa using (List.mem_filter.mp hmem).2)
  have hsplit := length_filter_add_length_filter_not l (fun w => decide (w ∈ ex))
  rw [hperm.length_eq] at hsplit
  omega

theorem sample_error_lt {picks : List ℕ} {k : ℕ} {pop : List String} {e : String}
    (h : sample picks k pop = .error e) : pop.length < k := by
  unfold sample at h
  split at h
  · cases h
  · omega

theorem choice_error_nil {pick : ℕ} {seq : List String} {e : String}
    (h : choice pick seq = .error e) : seq = [] := by
  unfold choice at h
  split at h
  · next he => exact List.isEmpty_iff.mp he
  · cases h


theorem layer_l1_facts {wallets : List String} {l1Picks : List ℕ}
    {source : String} {level1 : List String}
    (hW : wallets.Nodup) (hp1 : 3 ≤ l1Picks.length)
    (hs1 : sample l1Picks 3 (wallets.filter (fun w => decide (w ≠ source))) = .ok level1) :
    level1.length = 3 ∧ level1.Nodup ∧ (∀ x ∈ level1, x ∈ wallets ∧ x ≠ source) := by
  refine ⟨sample_ok_length hp1 hs1, sample_ok_nodup (hW.filter _) hs1, ?_⟩
  intro x hx
  have hmem := sample_ok_subset hs1 x hx
  have := List.mem_filter.mp hmem
  exact ⟨this.1, by simpa using this.2⟩

theorem layer_l2_facts {wallets : List String} {l2Picks : List ℕ}
    {source : String} {level1 level2 : List String}
    (hW : wallets.Nodup) (hp2 : 6 ≤ l2Picks.length)
    (hs2 : sample l2Picks 6
      (wallets.filter (fun w => decide (w ≠ source ∧ w ∉ level1))) = .ok level2) :
    level2.length = 6 ∧ level2.Nodup ∧
      (∀ x ∈ level2, x ∈ wallets ∧ x ≠ source ∧ x ∉ level1) := by
  refine ⟨sample_ok_length hp2 hs2, sample_ok_nodup (hW.filter _) hs2, ?_⟩
  intro x hx
  have hmem := sample_ok_subset hs2 x hx
  have := List.mem_filter.mp hmem
  refine ⟨this.1, ?_⟩
  have h2 := this.2
  simp only [decide_eq_true_eq] at h2
  exact h2

theorem layer_ex2_nodup {wallets : List String} {source : String} {level1 : List String}
    (hlen : level1.length = 3) (hnd : level1.Nodup)
    (hfacts : ∀ x ∈ level1, x ∈ wallets ∧ x ≠ source) :
    (source :: level1).Nodup := by
  rw [List.nodup_cons]
  exact ⟨fun hmem => (hfacts source hmem).2 rfl, hnd⟩

theorem layer_ex3_nodup {wallets : List String} {source : String}
    {level1 level2 : List String}
    (hnd1 : level1.Nodup) (hnd2 : level2.Nodup)
    (hf1 : ∀ x ∈ level1, x ∈ wallets ∧ x ≠ source)
    (hf2 : ∀ x ∈ level2, x ∈ wallets ∧ x ≠ source ∧ x ∉ level1) :
    (source :: (level1 ++ level2)).Nodup := by
  rw [List.nodup_cons, List.nodup_append]
  refine ⟨?_, hnd1, hnd2, ?_⟩
  · intro hmem
    rcases List.mem_append.mp hmem with h | h
    · exact (hf1 source h).2 rfl
    · exact (hf2 source h).2.1 rfl
  · intro x hx1 hx2
    exact (hf2 x hx2).2.2 hx1


/-- C8: with a duplicate-free wallet pool, `generate_layering_pattern`
succeeds exactly when the pool holds at least 11 distinct wallets (the
source, 3 level-1 wallets, 6 level-2 wallets and a distinct final
destination); with a smaller pool — e.g. the spec's pool of 5 — the call
fails at invocation time inside `random.sample`/`random.choice` before
any record is emitted, and on success the eleven sampled wallets are
pairwise distinct, so wallets are never wrapped around or reused. -/
theorem C8_holds :
    ∀ (wallets : List String) (srcPick : ℕ) (l1Picks l2Picks : List ℕ) (finalPick : ℕ)
      (initial : ℚ) (l1J l1G : List ℚ) (p1 : ℚ) (l12G : List ℚ) (p2 : ℚ) (l2G : List ℚ)
      (t0 : ℚ),
      wallets.Nodup → 3 ≤ l1Picks.length → 6 ≤ l2Picks.length →
      (((generate_layering_pattern wallets srcPick l1Picks l2Picks finalPick initial
          l1J l1G p1 l12G p2 l2G t0).isOk = true ↔ 11 ≤ wallets.length) ∧
       (∀ source level1 level2 final_dest,
         choice srcPick wallets = .ok source →
         sample l1Picks 3 (wallets.filter (fun w => decide (w ≠ source))) = .ok level1 →
         sample l2Picks 6 (wallets.filter (fun w => decide (w ≠ source ∧ w ∉ level1)))
           = .ok level2 →
         choice finalPick
           (wallets.filter (fun w => decide (w ≠ source ∧ w ∉ level1 ∧ w ∉ level2)))
           = .ok final_dest →
         (source :: (level1 ++ level2 ++ [final_dest])).Nodup)) := by
  intro wallets srcPick l1Picks l2Picks finalPick initial l1J l1G p1 l12G p2 l2G t0
  intro hW hp1 hp2
  constructor
  · -- success exactly when the pool has at least 11 wallets
    rw [generate_layering_pattern]
    cases hc : choice srcPick wallets with
    | error e =>
      have hnil := choice_error_nil hc
      simp only [exceptError_bind, hnil]
      apply iff_of_false
      · simp [Except.isOk, Except.toBool]
      · simp [hnil]
    | ok source =>
      simp only [exceptOk_bind]
      have hmem := choice_ok hc
      have hn1 : 1 ≤ wallets.length := List.length_pos.mpr (List.ne_nil_of_mem hmem)
      have hfeq1 : wallets.filter (fun w => decide (w ≠ source))
          = wallets.filter (fun w => !decide (w ∈ [source])) :=
        List.filter_congr (fun x hx => by simp)
      have hf1len : (wallets.filter (fun w => decide (w ≠ source))).length
          = wallets.length - 1 := by
        rw [hfeq1, length_filter_not_mem wallets [source] hW (by simp) (by simpa using hmem)]
        simp
      cases hs1 : sample l1Picks 3 (wallets.filter (fun w => decide (w ≠ source))) with
      | error e =>
        have hlt := sample_error_lt hs1
        rw [hf1len] at hlt
        simp only [exceptError_bind]
        apply iff_of_false
        · simp [Except.isOk, Except.toBool]
        · omega
      | ok level1 =>
        simp only [exceptOk_bind]
        obtain ⟨hl1len, hl1nd, hl1f⟩ := layer_l1_facts hW hp1 hs1
        have hex2 := layer_ex2_nodup hl1len hl1nd hl1f
        have hfeq2 : wallets.filter (fun w => decide (w ≠ source ∧ w ∉ level1))
            = wallets.filter (fun w => !decide (w ∈ source :: level1)) :=
          List.filter_congr (fun x hx => by
            rw [decide_eq_decide.mpr
              (show (x ≠ source ∧ x ∉ level1) ↔ ¬(x ∈ source :: level1) by
                simp [List.mem_cons, not_or])]
            rw [decide_not])
        have hf2len : (wallets.filter (fun w => decide (w ≠ source ∧ w ∉ level1))).length
            = wallets.length - 4 := by
          rw [hfeq2, length_filter_not_mem wallets (source :: level1) hW hex2 ?hsub]
          · simp [hl1len]
          case hsub =>
            intro x hx
            rcases List.mem_cons.mp hx with rfl | hx1
            · exact hmem
            · exact (hl1f x hx1).1
        cases hs2 : sample l2Picks 6
            (wallets.filter (fun w => decide (w ≠ source ∧ w ∉ level1))) with
        | error e =>
          have hlt := sample_error_lt hs2
          rw [hf2len] at hlt
          simp only [exceptError_bind]
          apply iff_of_false
          · simp [Except.isOk, Except.toBool]
          · omega
        | ok level2 =>
          simp only [exceptOk_bind]
          obtain ⟨hl2len, hl2nd, hl2f⟩ := layer_l2_facts hW hp2 hs2
          have hex3 := layer_ex3_nodup hl1nd hl2nd hl1f hl2f
          have hfeq3 : wallets.filter
                (fun w => decide (w ≠ source ∧ w ∉ level1 ∧ w ∉ level2))
              = wallets.filter (fun w => !decide (w ∈ source :: (level1 ++ level2))) :=
            List.filter_congr (fun x hx => by
              rw [decide_eq_decide.mpr
                (show (x ≠ source ∧ x ∉ level1 ∧ x ∉ level2)
                    ↔ ¬(x ∈ source :: (level1 ++ level2)) by
                  simp [List.mem_cons, List.mem_append, not_or])]
              rw [decide_not])
          have hf3len : (wallets.filter
                (fun w => decide (w ≠ source ∧ w ∉ level1 ∧ w ∉ level2))).length
              = wallets.length - 10 := by
            rw [hfeq3, length_filter_not_mem wallets (source :: (level1 ++ level2)) hW hex3
              ?hsub3]
            · simp [hl1len, hl2len]
            case hsub3 =>
              intro x hx
              rcases List.mem_cons.mp hx with rfl | hx1
              · exact hmem
              · rcases List.mem_append.mp hx1 with h | h
                · exact (hl1f x h).1
                · exact (hl2f x h).1
          cases hcf : choice finalPick
              (wallets.filter (fun w => decide (w ≠ source ∧ w ∉ level1 ∧ w ∉ level2))) with
          | error e =>
            have hnil := choice_error_nil hcf
            have : (wallets.filter
                (fun w => decide (w ≠ source ∧ w ∉ level1 ∧ w ∉ level2))).length = 0 := by
              rw [hnil]
              rfl
            rw [hf3len] at this
            simp only [exceptError_bind]
            apply iff_of_false
            · simp [Except.isOk, Except.toBool]
            · omega
          | ok final_dest =>
            simp only [exceptOk_bind]
            apply iff_of_true
            · rfl
            · have hmemf := choice_ok hcf
              have hpos : 1 ≤ (wallets.filter
                  (fun w => decide (w ≠ source ∧ w ∉ level1 ∧ w ∉ level2))).length :=
                List.length_pos.mpr (List.ne_nil_of_mem hmemf)
              rw [hf3len] at hpos
              omega
  · -- on success the eleven wallets are pairwise distinct
    intro source level1 level2 final_dest hc hs1 hs2 hcf
    have hmem := choice_ok hc
    obtain ⟨hl1len, hl1nd, hl1f⟩ := layer_l1_facts hW hp1 hs1
    obtain ⟨hl2len, hl2nd, hl2f⟩ := layer_l2_facts hW hp2 hs2
    have hmemf := choice_ok hcf
    have hff := List.mem_filter.mp hmemf
    have hf3 : final_dest ≠ source ∧ final_dest ∉ level1 ∧ final_dest ∉ level2 := by
      have := hff.2
      simp only [decide_eq_true_eq] at this
      exact this
    rw [List.nodup_cons, List.nodup_append, List.nodup_append]
    refine ⟨?_, ⟨hl1nd, hl2nd, ?_⟩, ?_, ?_⟩
    · intro hmem2
      rcases List.mem_append.mp hmem2 with h | h
      · rcases List.mem_append.mp h with h1 | h1
        · exact (hl1f source h1).2 rfl
        · exact (hl2f source h1).2.1 rfl
      · rcases List.mem_singleton.mp h with rfl
        exact hf3.1 rfl
    · intro x hx1 hx2
      exact (hl2f x hx2).2.2 hx1
    · simp
    · intro x hx hxs
      rcases List.mem_singleton.mp hxs with rfl
      rcases List.mem_append.mp hx with h | h
      · exact hf3.2.1 h
      · exact hf3.2.2 h

theorem C8_holds_witness :
    (generate_layering_pattern ["v0", "v1", "v2", "v3", "v4"] 0 [0, 0, 0]
      [0, 0, 0, 0, 0, 0] 0 30 [1, 1, 1] [20, 20, 20] 120 [15, 15, 15, 15, 15, 15] 180
      [10, 10, 10, 10, 10, 10] 0).isOk = false := by
  have h := (C8_holds ["v0", "v1", "v2", "v3", "v4"] 0 [0, 0, 0] [0, 0, 0, 0, 0, 0] 0 30
    [1, 1, 1] [20, 20, 20] 120 [15, 15, 15, 15, 15, 15] 180 [10, 10, 10, 10, 10, 10] 0
    (by decide) (by decide) (by decide)).1
  rw [Bool.eq_false_iff]
  intro hb
  exact (by decide : ¬ (11 ≤ (["v0", "v1", "v2", "v3", "v4"] : List String).length)) (h.mp hb)


/-! ## C6: wallet-pool uniqueness -/

set_option maxRecDepth 10000 in
/-- C6 is FALSE as stated: `create_wallet_pool` maps `generate_wallet_address`
over `range(num_wallets)` with no uniqueness check or deduplication, so the
pool is pairwise distinct only when the underlying uuid draws are; if the
uuid source repeats a digest (as is possible in principle for `uuid4`),
the pool contains a duplicate. -/
theorem C6_counterexample : ¬ (create_wallet_pool 2 (fun _ => "ab")).Nodup := by
  decide

/-- C6 (amended): `create_wallet_pool` produces `N` identifiers, and they
are pairwise distinct provided the first 40 hex characters of the `N`
underlying uuid draws are pairwise distinct; the code itself performs no
check or deduplication. -/
theorem C6_amended_holds :
    ∀ (num_wallets : ℕ) (u : ℕ → String),
      (∀ i j, i < num_wallets → j < num_wallets → i ≠ j → (u i).take 40 ≠ (u j).take 40) →
      (create_wallet_pool num_wallets u).Nodup ∧
        (create_wallet_pool num_wallets u).length = num_wallets := by
  intro N u hinj
  constructor
  · rw [create_wallet_pool]
    apply List.Nodup.map_on ?_ (List.nodup_range N)
    intro i hi j hj heq
    by_contra hne
    apply hinj i j (List.mem_range.mp hi) (List.mem_range.mp hj) hne
    have hd := congrArg String.data heq
    rw [generate_wallet_address, generate_wallet_address] at hd
    simp only [String.data_append] at hd
    exact String.ext (List.append_cancel_left hd)
  · rw [create_wallet_pool]
    simp

set_option maxRecDepth 10000 in
theorem C6_amended_holds_witness :
    (create_wallet_pool 2 (fun i => if i = 0 then "a" else "b")).Nodup ∧
      (create_wallet_pool 2 (fun i => if i = 0 then "a" else "b")).length = 2 := by
  apply C6_amended_holds 2 (fun i => if i = 0 then "a" else "b")
  intro i j hi hj hne
  interval_cases i <;> interval_cases j <;> simp_all <;> decide

/-! ## C9: determinism and the uuid source -/

set_option maxRecDepth 10000 in
/-- C9 is FALSE as stated: the record sequence is not a function of the
configuration and the `random`-module seed alone, because wallet
addresses come from `uuid.uuid4()`, which draws from operating-system
randomness that no seed controls.  Holding every seeded draw fixed and
changing only the first uuid digest changes the produced records. -/
theorem C9_counterexample :
    ¬ (generate_dataset 1 2 (fun _ => "aa") (fun _ => [])
        (fun _ ws => (generate_normal_transaction ws [0, 1] 1 0 0).toOption.getD
          ⟨"", "", 0, 0, ""⟩)
      = generate_dataset 1 2 (fun i => if i = 0 then "bb" else "aa") (fun _ => [])
        (fun _ ws => (generate_normal_transaction ws [0, 1] 1 0 0).toOption.getD
          ⟨"", "", 0, 0, ""⟩)) := by
  intro h
  have h2 := congrArg (fun l => l.map Txn.Source_wallet) h
  simp only [generate_dataset, create_wallet_pool, generate_wallet_address,
    generate_normal_transaction, sample, sampleGo, choice, sortByTimestamp,
    TOKEN_TYPES] at h2
  norm_num [exceptOk_bind, exceptMap_ok, Except.toOption] at h2
  exact absurd h2 (by decide)

/-- C9 (amended): the dataset-generation core is deterministic given the
configuration, the seeded random draws, AND the uuid stream: it reads only
the first `num_wallets` uuid digests, so any two runs agreeing on those
(and on all seeded draws) produce identical record sequences.  Fixing the
seed alone is not enough, since the uuid source is process-global. -/
theorem C9_amended_holds :
    ∀ (target num_wallets : ℕ) (u1 u2 : ℕ → String)
      (patterns : List String → List Txn) (nd : ℕ → List String → Txn),
      (∀ i, i < num_wallets → u1 i = u2 i) →
      generate_dataset target num_wallets u1 patterns nd
        = generate_dataset target num_wallets u2 patterns nd := by
  intro target nw u1 u2 pg nd hu
  have hpool : create_wallet_pool nw u1 = create_wallet_pool nw u2 := by
    unfold create_wallet_pool
    apply List.map_congr_left
    intro i hi
    rw [generate_wallet_address, generate_wallet_address, hu i (List.mem_range.mp hi)]
  unfold generate_dataset
  rw [hpool]

theorem C9_amended_holds_witness :
    generate_dataset 3 1 (fun _ => "aa") (fun _ => []) (fun _ _ => ⟨"x", "y", 0, 1, "ETH"⟩)
      = generate_dataset 3 1 (fun i => if i < 1 then "aa" else "zz") (fun _ => [])
        (fun _ _ => ⟨"x", "y", 0, 1, "ETH"⟩) := by
  apply C9_amended_holds 3 1 (fun _ => "aa") (fun i => if i < 1 then "aa" else "zz")
  intro i hi
  simp [hi]


/-! ## Shape lemmas for the remaining generator loops -/

theorem getLastD_eq_getElem {l : List String} (h : 0 < l.length) :
    l.getLastD "" = l[l.length - 1] := by
  rw [List.getLastD_eq_getLast?, List.getLast?_eq_getElem?,
    List.getElem?_eq_getElem (by omega)]
  rfl

theorem mem_slice_index {l : List String} {K : ℕ} {x : String}
    (hx : x ∈ (l.drop 1).take K) :
    ∃ j, ∃ h : 1 + j < l.length, j < K ∧ l[1 + j] = x := by
  obtain ⟨n, hn, heq⟩ := List.mem_iff_getElem.mp hx
  have hlen : n < K ∧ 1 + n < l.length := by
    have := hn
    rw [List.length_take, List.length_drop] at this
    omega
  refine ⟨n, hlen.2, hlen.1, ?_⟩
  rw [← heq, List.getElem_take, List.getElem_drop]

theorem circularLoop_token (c : List String) (L : ℕ) :
    ∀ (fg : List (ℚ × ℚ)) (i : ℕ) (cur t : ℚ),
      ∀ txn ∈ circularLoop c L fg i cur t, txn.token_type = LAUNDERING_TOKEN_TYPE
  | [], _, _, _ => by simp [circularLoop]
  | (f, g) :: rest, i, cur, t => by
    intro txn htxn
    rcases List.mem_cons.mp htxn with rfl | h
    · rfl
    · exact circularLoop_token c L rest (i + 1) (cur * (1 - f)) (t + g) txn h

theorem peelLoop_shape (c : List String) :
    ∀ (fg : List (ℚ × ℚ)) (i : ℕ) (cur t : ℚ),
      ∀ txn ∈ peelLoop c fg i cur t,
        txn.token_type = LAUNDERING_TOKEN_TYPE ∧
        ∃ j, j < fg.length ∧ txn.Source_wallet = c.getD (i + j) "" ∧
          txn.Dest_wallet = c.getD (i + j + 1) ""
  | [], _, _, _ => by simp [peelLoop]
  | (p, g) :: rest, i, cur, t => by
    intro txn htxn
    rcases List.mem_cons.mp htxn with rfl | h
    · exact ⟨rfl, 0, by simp⟩
    · obtain ⟨htok, j, hj, hsrc, hdst⟩ :=
        peelLoop_shape c rest (i + 1) (cur * (1 - p)) (t + g) txn h
      refine ⟨htok, j + 1, by simpa using hj, ?_, ?_⟩
      · rw [hsrc]; congr 1; omega
      · rw [hdst]; congr 1; omega

theorem layerL01_shape (source : String) (split : ℚ) :
    ∀ (l : List (String × ℚ × ℚ)) (t : ℚ), ∀ txn ∈ (layerL01 source split l t).1,
      txn.Source_wallet = source ∧ txn.Dest_wallet ∈ l.map (fun x => x.1) ∧
        txn.token_type = LAUNDERING_TOKEN_TYPE
  | [], _ => by simp [layerL01]
  | (w, j, g) :: rest, t => by
    intro txn htxn
    rcases List.mem_cons.mp htxn with rfl | h
    · exact ⟨rfl, by simp, rfl⟩
    · obtain ⟨h1, h2, h3⟩ := layerL01_shape source split rest (t + g) txn h
      refine ⟨h1, ?_, h3⟩
      simp only [List.map_cons, List.mem_cons]
      right
      exact h2

theorem layerL12_shape (l1 l2 : List String) (split : ℚ) :
    ∀ (l : List ((ℕ × ℕ) × ℚ)) (t : ℚ), ∀ txn ∈ (layerL12 l1 l2 split l t).1,
      txn.token_type = LAUNDERING_TOKEN_TYPE ∧
      ∃ p ∈ l, txn.Source_wallet = l1.getD p.1.1 "" ∧
        txn.Dest_wallet = l2.getD (p.1.1 * 2 + p.1.2) ""
  | [], _ => by simp [layerL12]
  | ((i, j), g) :: rest, t => by
    intro txn htxn
    rcases List.mem_cons.mp htxn with rfl | h
    · exact ⟨rfl, ((i, j), g), List.mem_cons_self _ _, rfl, rfl⟩
    · obtain ⟨htok, p, hp, h1, h2⟩ := layerL12_shape l1 l2 split rest (t + g) txn h
      exact ⟨htok, p, List.mem_cons_of_mem _ hp, h1, h2⟩

theorem layerL2F_shape (final_dest : String) (split : ℚ) :
    ∀ (l : List (String × ℚ)) (t : ℚ), ∀ txn ∈ (layerL2F final_dest split l t).1,
      txn.Dest_wallet = final_dest ∧ txn.Source_wallet ∈ l.map (fun x => x.1) ∧
        txn.token_type = LAUNDERING_TOKEN_TYPE
  | [], _ => by simp [layerL2F]
  | (w, g) :: rest, t => by
    intro txn htxn
    rcases List.mem_cons.mp htxn with rfl | h
    · exact ⟨rfl, by simp, rfl⟩
    · obtain ⟨h1, h2, h3⟩ := layerL2F_shape final_dest split rest (t + g) txn h
      refine ⟨h1, ?_, h3⟩
      simp only [List.map_cons, List.mem_cons]
      right
      exact h2

theorem structuringLoop_shape (source : String) :
    ∀ (l : List (String × ℚ × ℚ)) (t : ℚ), ∀ txn ∈ (structuringLoop source l t).1,
      txn.Source_wallet = source ∧ txn.Dest_wallet ∈ l.map (fun x => x.1) ∧
        txn.token_type = LAUNDERING_TOKEN_TYPE
  | [], _ => by simp [structuringLoop]
  | (w, a, g) :: rest, t => by
    intro txn htxn
    rcases List.mem_cons.mp htxn with rfl | h
    · exact ⟨rfl, by simp, rfl⟩
    · obtain ⟨h1, h2, h3⟩ := structuringLoop_shape source rest (t + g) txn h
      refine ⟨h1, ?_, h3⟩
      simp only [List.map_cons, List.mem_cons]
      right
      exact h2

theorem ptInflow_shape (pt : String) :
    ∀ (l : List (String × ℚ × ℚ)) (t total : ℚ), ∀ txn ∈ (ptInflow pt l t total).1,
      txn.Dest_wallet = pt ∧ txn.Source_wallet ∈ l.map (fun x => x.1) ∧
        txn.token_type = LAUNDERING_TOKEN_TYPE
  | [], _, _ => by simp [ptInflow]
  | (w, a, g) :: rest, t, total => by
    intro txn htxn
    rcases List.mem_cons.mp htxn with rfl | h
    · exact ⟨rfl, by simp, rfl⟩
    · obtain ⟨h1, h2, h3⟩ := ptInflow_shape pt rest (t + g) (total + a) txn h
      refine ⟨h1, ?_, h3⟩
      simp only [List.map_cons, List.mem_cons]
      right
      exact h2

theorem ptOutflow_shape (pt : String) (apd : ℚ) :
    ∀ (l : List (String × ℚ × ℚ)) (t : ℚ), ∀ txn ∈ (ptOutflow pt apd l t).1,
      txn.Source_wallet = pt ∧ txn.Dest_wallet ∈ l.map (fun x => x.1) ∧
        txn.token_type = LAUNDERING_TOKEN_TYPE
  | [], _ => by simp [ptOutflow]
  | (w, j, g) :: rest, t => by
    intro txn htxn
    rcases List.mem_cons.mp htxn with rfl | h
    · exact ⟨rfl, by simp, rfl⟩
    · obtain ⟨h1, h2, h3⟩ := ptOutflow_shape pt apd rest (t + g) txn h
      refine ⟨h1, ?_, h3⟩
      simp only [List.map_cons, List.mem_cons]
      right
      exact h2

theorem mixerInflow_shape (mixer : String) :
    ∀ (l : List (String × ℚ × ℚ)) (t total : ℚ), ∀ txn ∈ (mixerInflow mixer l t total).1,
      txn.Dest_wallet = mixer ∧ txn.Source_wallet ∈ l.map (fun x => x.1) ∧
        txn.token_type = LAUNDERING_TOKEN_TYPE
  | [], _, _ => by simp [mixerInflow]
  | (w, a, g) :: rest, t, total => by
    intro txn htxn
    rcases List.mem_cons.mp htxn with rfl | h
    · exact ⟨rfl, by simp, rfl⟩
    · obtain ⟨h1, h2, h3⟩ := mixerInflow_shape mixer rest (t + g) (total + a) txn h
      refine ⟨h1, ?_, h3⟩
      simp only [List.map_cons, List.mem_cons]
      right
      exact h2

theorem mixerOutflow_shape (mixer : String) (apo : ℚ) :
    ∀ (l : List (String × ℚ × ℚ)) (t : ℚ), ∀ txn ∈ (mixerOutflow mixer apo l t).1,
      txn.Source_wallet = mixer ∧ txn.Dest_wallet ∈ l.map (fun x => x.1) ∧
        txn.token_type = LAUNDERING_TOKEN_TYPE
  | [], _ => by simp [mixerOutflow]
  | (w, j, g) :: rest, t => by
    intro txn htxn
    rcases List.mem_cons.mp htxn with rfl | h
    · exact ⟨rfl, by simp, rfl⟩
    · obtain ⟨h1, h2, h3⟩ := mixerOutflow_shape mixer apo rest (t + g) txn h
      refine ⟨h1, ?_, h3⟩
      simp only [List.map_cons, List.mem_cons]
      right
      exact h2


/-! ## Decomposition of the remaining generators on success -/

theorem circ_ok_decomp {wallets : List String} {L : ℕ} {picks : List ℕ} {initial : ℚ}
    {feeGaps : List (ℚ × ℚ)} {t0 : ℚ} {txs : List Txn}
    (h : generate_circular_pattern wallets L picks initial feeGaps t0 = .ok txs) :
    ∃ c, sample picks L wallets = .ok c ∧ txs = circularLoop c L feeGaps 0 initial t0 := by
  rw [generate_circular_pattern] at h
  cases hsa : sample picks L wallets with
  | error e =>
    rw [hsa] at h
    simp only [exceptError_bind] at h
    exact absurd h (by simp)
  | ok c =>
    rw [hsa] at h
    simp only [exceptOk_bind] at h
    exact ⟨c, by first | rfl | exact hsa, ((Except.ok.injEq _ _).mp h).symm⟩

theorem peel_ok_decomp {wallets : List String} {chain_length : ℕ} {picks : List ℕ}
    {initial : ℚ} {peelGaps : List (ℚ × ℚ)} {t0 : ℚ} {txs : List Txn}
    (h : generate_peel_chain wallets chain_length picks initial peelGaps t0 = .ok txs) :
    ∃ c, sample picks chain_length wallets = .ok c ∧
      txs = peelLoop c peelGaps 0 initial t0 := by
  rw [generate_peel_chain] at h
  cases hsa : sample picks chain_length wallets with
  | error e =>
    rw [hsa] at h
    simp only [exceptError_bind] at h
    exact absurd h (by simp)
  | ok c =>
    rw [hsa] at h
    simp only [exceptOk_bind] at h
    exact ⟨c, by first | rfl | exact hsa, ((Except.ok.injEq _ _).mp h).symm⟩

theorem struct_ok_decomp {wallets : List String} {srcPick num_smurfs : ℕ}
    {destPicks : List ℕ} {small_amounts gaps : List ℚ} {t0 : ℚ} {txs : List Txn}
    (h : generate_structuring_pattern wallets srcPick num_smurfs destPicks small_amounts
          gaps t0 = .ok txs) :
    ∃ source destinations,
      choice srcPick wallets = .ok source ∧
      sample destPicks num_smurfs (wallets.filter (fun w => decide (w ≠ source)))
        = .ok destinations ∧
      txs = (structuringLoop source (destinations.zip (small_amounts.zip gaps)) t0).1 := by
  rw [generate_structuring_pattern] at h
  cases hc : choice srcPick wallets with
  | error e =>
    rw [hc] at h
    simp only [exceptError_bind] at h
    exact absurd h (by simp)
  | ok source =>
    rw [hc] at h
    simp only [exceptOk_bind] at h
    cases hs : sample destPicks num_smurfs
        (wallets.filter (fun w => decide (w ≠ source))) with
    | error e =>
      rw [hs] at h
      simp only [exceptError_bind] at h
      exact absurd h (by simp)
    | ok destinations =>
      rw [hs] at h
      simp only [exceptOk_bind] at h
      exact ⟨source, destinations, by first | rfl | exact hc, by first | rfl | exact hs,
        ((Except.ok.injEq _ _).mp h).symm⟩

theorem mixer_ok_decomp {wallets mixer_wallets : List String} {num_users : ℕ}
    {userPicks : List ℕ} {mixerPick : ℕ} {amounts gaps1 : List ℚ} {pause : ℚ}
    {outPicks : List ℕ} {jitters gaps2 : List ℚ} {t0 : ℚ} {txs : List Txn}
    (h : generate_mixer_interactions wallets mixer_wallets num_users userPicks mixerPick
          amounts gaps1 pause outPicks jitters gaps2 t0 = .ok txs) :
    ∃ users mixer output_wallets,
      sample userPicks num_users wallets = .ok users ∧
      choice mixerPick mixer_wallets = .ok mixer ∧
      sample outPicks num_users (wallets.filter (fun w => decide (w ∉ users)))
        = .ok output_wallets ∧
      txs = (mixerInflow mixer (users.zip (amounts.zip gaps1)) t0 0).1 ++
            (mixerOutflow mixer
              ((mixerInflow mixer (users.zip (amounts.zip gaps1)) t0 0).2.2
                * (97 / 100) / (num_users : ℚ))
              (output_wallets.zip (jitters.zip gaps2))
              ((mixerInflow mixer (users.zip (amounts.zip gaps1)) t0 0).2.1 + pause)).1 := by
  rw [generate_mixer_interactions] at h
  cases hs1 : sample userPicks num_users wallets with
  | error e =>
    rw [hs1] at h
    simp only [exceptError_bind] at h
    exact absurd h (by simp)
  | ok users =>
    rw [hs1] at h
    simp only [exceptOk_bind] at h
    cases hc : choice mixerPick mixer_wallets with
    | error e =>
      rw [hc] at h
      simp only [exceptError_bind] at h
      exact absurd h (by simp)
    | ok mixer =>
      rw [hc] at h
      simp only [exceptOk_bind] at h
      cases hs2 : sample outPicks num_users
          (wallets.filter (fun w => decide (w ∉ users))) with
      | error e =>
        rw [hs2] at h
        simp only [exceptError_bind] at h
        exact absurd h (by simp)
      | ok output_wallets =>
        rw [hs2] at h
        simp only [exceptOk_bind] at h
        exact ⟨users, mixer, output_wallets, by first | rfl | exact hs1,
          by first | rfl | exact hc, by first | rfl | exact hs2,
          ((Except.ok.injEq _ _).mp h).symm⟩

theorem layer_ok_decomp {wallets : List String} {srcPick : ℕ} {l1Picks l2Picks : List ℕ}
    {finalPick : ℕ} {initial : ℚ} {l1J l1G : List ℚ} {p1 : ℚ} {l12G : List ℚ} {p2 : ℚ}
    {l2G : List ℚ} {t0 : ℚ} {txs : List Txn}
    (h : generate_layering_pattern wallets srcPick l1Picks l2Picks finalPick initial
          l1J l1G p1 l12G p2 l2G t0 = .ok txs) :
    ∃ source level1 level2 final_dest,
      choice srcPick wallets = .ok source ∧
      sample l1Picks 3 (wallets.filter (fun w => decide (w ≠ source))) = .ok level1 ∧
      sample l2Picks 6 (wallets.filter (fun w => decide (w ≠ source ∧ w ∉ level1)))
        = .ok level2 ∧
      choice finalPick
        (wallets.filter (fun w => decide (w ≠ source ∧ w ∉ level1 ∧ w ∉ level2)))
        = .ok final_dest ∧
      txs = (layerL01 source (initial / 3) (level1.zip (l1J.zip l1G)) t0).1 ++
            (layerL12 level1 level2 (initial / 3)
              (((List.range level1.length).bind
                  (fun i => (List.range 2).map (fun j => (i, j)))).zip l12G)
              ((layerL01 source (initial / 3) (level1.zip (l1J.zip l1G)) t0).2 + p1)).1 ++
            (layerL2F final_dest (initial / 3) (level2.zip l2G)
              ((layerL12 level1 level2 (initial / 3)
                (((List.range level1.length).bind
                    (fun i => (List.range 2).map (fun j => (i, j)))).zip l12G)
                ((layerL01 source (initial / 3) (level1.zip (l1J.zip l1G)) t0).2 + p1)).2
                + p2)).1 := by
  rw [generate_layering_pattern] at h
  cases hc : choice srcPick wallets with
  | error e =>
    rw [hc] at h
    simp only [exceptError_bind] at h
    exact absurd h (by simp)
  | ok source =>
    rw [hc] at h
    simp only [exceptOk_bind] at h
    cases hs1 : sample l1Picks 3 (wallets.filter (fun w => decide (w ≠ source))) with
    | error e =>
      rw [hs1] at h
      simp only [exceptError_bind] at h
      exact absurd h (by simp)
    | ok level1 =>
      rw [hs1] at h
      simp only [exceptOk_bind] at h
      cases hs2 : sample l2Picks 6
          (wallets.filter (fun w => decide (w ≠ source ∧ w ∉ level1))) with
      | error e =>
        rw [hs2] at h
        simp only [exceptError_bind] at h
        exact absurd h (by simp)
      | ok level2 =>
        rw [hs2] at h
        simp only [exceptOk_bind] at h
        cases hcf : choice finalPick
            (wallets.filter (fun w => decide (w ≠ source ∧ w ∉ level1 ∧ w ∉ level2))) with
        | error e =>
          rw [hcf] at h
          simp only [exceptError_bind] at h
          exact absurd h (by simp)
        | ok final_dest =>
          rw [hcf] at h
          simp only [exceptOk_bind] at h
          exact ⟨source, level1, level2, final_dest, by first | rfl | exact hc,
            by first | rfl | exact hs1, by first | rfl | exact hs2,
            by first | rfl | exact hcf, ((Except.ok.injEq _ _).mp h).symm⟩

theorem normal_ok_decomp {wallets : List String} {pairPicks : List ℕ} {amount : ℚ}
    {tokenPick : ℕ} {ts : ℚ} {txn : Txn}
    (h : generate_normal_transaction wallets pairPicks amount tokenPick ts = .ok txn) :
    ∃ pair token, sample pairPicks 2 wallets = .ok pair ∧
      choice tokenPick TOKEN_TYPES = .ok token ∧
      txn = { Source_wallet := pair.getD 0 "", Dest_wallet := pair.getD 1 "",
              timestamp := ts, amount := round6 amount, token_type := token } := by
  rw [generate_normal_transaction] at h
  cases hs : sample pairPicks 2 wallets with
  | error e =>
    rw [hs] at h
    simp only [exceptError_bind] at h
    exact absurd h (by simp)
  | ok pair =>
    rw [hs] at h
    simp only [exceptOk_bind] at h
    cases hc : choice tokenPick TOKEN_TYPES with
    | error e =>
      rw [hc] at h
      simp only [exceptError_bind] at h
      exact absurd h (by simp)
    | ok token =>
      rw [hc] at h
      simp only [exceptOk_bind] at h
      exact ⟨pair, token, by first | rfl | exact hs, by first | rfl | exact hc,
        ((Except.ok.injEq _ _).mp h).symm⟩


/-! ## No-self-transfer lemmas -/

theorem mem_of_mem_map_fst_zip {β : Type} {a : List String} {b : List β} {x : String}
    (h : x ∈ (a.zip b).map (fun p => p.1)) : x ∈ a := by
  obtain ⟨p, hp, rfl⟩ := List.mem_map.mp h
  exact (List.of_mem_zip hp).1

theorem fanOutLoop5_shape (s : String) (apk : ℚ) :
    ∀ (l : List (String × ℚ × ℚ × String × ℚ)) (t : ℚ), ∀ txn ∈ (fanOutLoop5 s apk l t).1,
      txn.from_wallet = s ∧ txn.to_wallet ∈ l.map (fun x => x.1) ∧ txn.token_type = "ETH"
  | [], _ => by simp [fanOutLoop5]
  | (w, v, g, hsh, gas) :: rest, t => by
    intro txn htxn
    rcases List.mem_cons.mp htxn with rfl | h
    · exact ⟨rfl, by simp, rfl⟩
    · obtain ⟨h1, h2, h3⟩ := fanOutLoop5_shape s apk rest (t + g) txn h
      refine ⟨h1, ?_, h3⟩
      simp only [List.map_cons, List.mem_cons]
      right
      exact h2

theorem fanInLoop5_shape (a : String) (apk : ℚ) :
    ∀ (l : List (String × ℚ × String × ℚ)) (t : ℚ), ∀ txn ∈ (fanInLoop5 a apk l t).1,
      txn.to_wallet = a ∧ txn.from_wallet ∈ l.map (fun x => x.1) ∧ txn.token_type = "ETH"
  | [], _ => by simp [fanInLoop5]
  | (w, g, hsh, gas) :: rest, t => by
    intro txn htxn
    rcases List.mem_cons.mp htxn with rfl | h
    · exact ⟨rfl, by simp, rfl⟩
    · obtain ⟨h1, h2, h3⟩ := fanInLoop5_shape a apk rest (t + g) txn h
      refine ⟨h1, ?_, h3⟩
      simp only [List.map_cons, List.mem_cons]
      right
      exact h2

theorem chain_no_self :
    ∀ (wallets : List String) (samplePicks : List ℕ) (K : ℕ) (initial : ℚ)
      (variations fees g1 g2 : List ℚ) (pg t0 : ℚ) (txs : List Txn),
      generate_laundering_chain wallets samplePicks K initial variations fees g1 g2 pg t0
        = .ok txs →
      wallets.Nodup → 14 ≤ samplePicks.length → K ≤ 8 →
      NoSelfTransfer txs := by
  intro wallets samplePicks K initial variations fees g1 g2 pg t0 txs hok hW hsp hK8
  obtain ⟨available, hsa, htxs⟩ := chain_ok_decomp hok
  have hal : available.length = 14 := sample_ok_length (by simpa using hsp) hsa
  have hnd : available.Nodup := sample_ok_nodup hW hsa
  have hsrc0 : available.getD 0 "" = available[0] :=
    List.getD_eq_getElem _ _ (by omega)
  have hagg : available.getLastD "" = available[13] := by
    rw [getLastD_eq_getElem (by omega)]
    simp [hal]
  intro txn htxn
  rw [htxs] at htxn
  rcases List.mem_append.mp htxn with h | h
  · obtain ⟨hsrc, hdst, -⟩ := fanOutLoop_shape _ _ _ _ txn h
    obtain ⟨j, hj, hjK, hjeq⟩ := mem_slice_index (mem_of_mem_map_fst_zip hdst)
    rw [hsrc, hsrc0, ← hjeq]
    intro heq
    have := (hnd.getElem_inj_iff).mp heq
    omega
  · obtain ⟨hdst, hsrc, -⟩ := fanInLoop_shape _ _ _ _ txn h
    obtain ⟨j, hj, hjK, hjeq⟩ := mem_slice_index (mem_of_mem_map_fst_zip hsrc)
    rw [hdst, hagg, ← hjeq]
    intro heq
    have := (hnd.getElem_inj_iff).mp heq
    omega

theorem chain5_no_self :
    ∀ (wallets : List String) (samplePicks : List ℕ) (cfg : Config5) (K : ℕ) (initial : ℚ)
      (fod : List (ℚ × ℚ × String × ℚ)) (fid : List (ℚ × String × ℚ)) (t0 : ℚ)
      (txs : List Txn5),
      generate_laundering_chain5 wallets samplePicks cfg K initial fod fid t0 = .ok txs →
      wallets.Nodup → cfg.max_hops + 2 ≤ wallets.length →
      min (cfg.max_hops + 2) wallets.length ≤ samplePicks.length → K ≤ cfg.max_hops →
      NoSelfTransfer5 txs := by
  intro wallets samplePicks cfg K initial fod fid t0 txs hok hW hwl hsp hKm
  obtain ⟨available, hsa, htxs⟩ := chain5_ok_decomp hok
  have hmin : min (cfg.max_hops + 2) wallets.length = cfg.max_hops + 2 := by omega
  have hal : available.length = cfg.max_hops + 2 := by
    rw [sample_ok_length hsp hsa, hmin]
  have hnd : available.Nodup := sample_ok_nodup hW hsa
  have hsrc0 : available.getD 0 "" = available[0] :=
    List.getD_eq_getElem _ _ (by omega)
  have hagg : available.getLastD "" = available[cfg.max_hops + 1] := by
    rw [getLastD_eq_getElem (by omega)]
    simp [hal]
  intro txn htxn
  rw [htxs] at htxn
  rcases List.mem_append.mp htxn with h | h
  · obtain ⟨hsrc, hdst, -⟩ := fanOutLoop5_shape _ _ _ _ txn h
    obtain ⟨j, hj, hjK, hjeq⟩ := mem_slice_index (mem_of_mem_map_fst_zip hdst)
    rw [hsrc, hsrc0, ← hjeq]
    intro heq
    have := (hnd.getElem_inj_iff).mp heq
    omega
  · obtain ⟨hdst, hsrc, -⟩ := fanInLoop5_shape _ _ _ _ txn h
    obtain ⟨j, hj, hjK, hjeq⟩ := mem_slice_index (mem_of_mem_map_fst_zip hsrc)
    rw [hdst, hagg, ← hjeq]
    intro heq
    have := (hnd.getElem_inj_iff).mp heq
    omega


theorem circular_no_self :
    ∀ (wallets : List String) (L : ℕ) (picks : List ℕ) (initial : ℚ)
      (feeGaps : List (ℚ × ℚ)) (t0 : ℚ) (txs : List Txn),
      generate_circular_pattern wallets L picks initial feeGaps t0 = .ok txs →
      wallets.Nodup → L ≤ picks.length → 2 ≤ L → feeGaps.length = L →
      NoSelfTransfer txs := by
  intro wallets L picks initial feeGaps t0 txs hok hW hp hL2 hfg
  obtain ⟨c, hsa, htxs⟩ := circ_ok_decomp hok
  have hcl : c.length = L := sample_ok_length hp hsa
  have hnd : c.Nodup := sample_ok_nodup hW hsa
  intro txn htxn
  rw [htxs] at htxn
  obtain ⟨k, hk, heq⟩ := List.mem_iff_getElem.mp htxn
  have hkL : k < L := by
    have h2 := hk
    rw [circularLoop_length, hfg] at h2
    exact h2
  have hsd := circularLoop_src_dst c L feeGaps 0 initial t0 k hk
  rw [← heq, hsd.1, hsd.2]
  have hmodlt : (0 + k + 1) % L < L := Nat.mod_lt _ (by omega)
  rw [List.getD_eq_getElem _ _ (by omega : 0 + k < c.length),
    List.getD_eq_getElem _ _ (by rw [hcl]; exact hmodlt)]
  intro heq2
  have hinj := (hnd.getElem_inj_iff).mp heq2
  simp only [Nat.zero_add] at hinj
  rcases Nat.lt_or_ge (k + 1) L with hlt | hge
  · rw [Nat.mod_eq_of_lt hlt] at hinj
    omega
  · have hk1 : k + 1 = L := by omega
    rw [hk1, Nat.mod_self] at hinj
    omega

theorem peel_no_self :
    ∀ (wallets : List String) (chain_length : ℕ) (picks : List ℕ) (initial : ℚ)
      (peelGaps : List (ℚ × ℚ)) (t0 : ℚ) (txs : List Txn),
      generate_peel_chain wallets chain_length picks initial peelGaps t0 = .ok txs →
      wallets.Nodup → chain_length ≤ picks.length → peelGaps.length < chain_length →
      NoSelfTransfer txs := by
  intro wallets chain_length picks initial peelGaps t0 txs hok hW hp hfg
  obtain ⟨c, hsa, htxs⟩ := peel_ok_decomp hok
  have hcl : c.length = chain_length := sample_ok_length hp hsa
  have hnd : c.Nodup := sample_ok_nodup hW hsa
  intro txn htxn
  rw [htxs] at htxn
  obtain ⟨-, j, hj, hsrc, hdst⟩ := peelLoop_shape c peelGaps 0 initial t0 txn htxn
  rw [hsrc, hdst]
  rw [List.getD_eq_getElem _ _ (by omega : 0 + j < c.length),
    List.getD_eq_getElem _ _ (by omega : 0 + j + 1 < c.length)]
  intro heq2
  have hinj := (hnd.getElem_inj_iff).mp heq2
  omega

theorem struct_no_self :
    ∀ (wallets : List String) (srcPick num_smurfs : ℕ) (destPicks : List ℕ)
      (small_amounts gaps : List ℚ) (t0 : ℚ) (txs : List Txn),
      generate_structuring_pattern wallets srcPick num_smurfs destPicks small_amounts
        gaps t0 = .ok txs →
      NoSelfTransfer txs := by
  intro wallets srcPick num_smurfs destPicks small_amounts gaps t0 txs hok
  obtain ⟨source, destinations, hc, hs, htxs⟩ := struct_ok_decomp hok
  intro txn htxn
  rw [htxs] at htxn
  obtain ⟨hsrc, hdst, -⟩ := structuringLoop_shape source _ _ txn htxn
  have hdmem := sample_ok_subset hs _ (mem_of_mem_map_fst_zip hdst)
  have := (List.mem_filter.mp hdmem).2
  simp only [decide_eq_true_eq] at this
  rw [hsrc]
  exact fun heq => this heq.symm

theorem pt_no_self :
    ∀ (wallets : List String) (ptPick num_sources num_dests : ℕ)
      (srcPicks dstPicks : List ℕ) (inAmounts inGaps : List ℚ)
      (pause outflow_ratio : ℚ) (outJitters outGaps : List ℚ) (t0 : ℚ) (txs : List Txn),
      generate_passthrough_pattern wallets ptPick num_sources num_dests srcPicks dstPicks
        inAmounts inGaps pause outflow_ratio outJitters outGaps t0 = .ok txs →
      NoSelfTransfer txs := by
  intro wallets ptPick ns nd srcPicks dstPicks inAmounts inGaps pause ratio outJitters
    outGaps t0 txs hok
  obtain ⟨pt, sources, dests, hc, hs1, hs2, htxs⟩ := pt_ok_decomp hok
  intro txn htxn
  rw [htxs] at htxn
  rcases List.mem_append.mp htxn with h | h
  · obtain ⟨hdst, hsrc, -⟩ := ptInflow_shape pt _ _ _ txn h
    have hsmem := sample_ok_subset hs1 _ (mem_of_mem_map_fst_zip hsrc)
    have := (List.mem_filter.mp hsmem).2
    simp only [decide_eq_true_eq] at this
    rw [hdst]
    exact this
  · obtain ⟨hsrc, hdst, -⟩ := ptOutflow_shape pt _ _ _ txn h
    have hdmem := sample_ok_subset hs2 _ (mem_of_mem_map_fst_zip hdst)
    have := (List.mem_filter.mp hdmem).2
    simp only [decide_eq_true_eq] at this
    rw [hsrc]
    exact fun heq => this.1 heq.symm

theorem layer_no_self :
    ∀ (wallets : List String) (srcPick : ℕ) (l1Picks l2Picks : List ℕ) (finalPick : ℕ)
      (initial : ℚ) (l1J l1G : List ℚ) (p1 : ℚ) (l12G : List ℚ) (p2 : ℚ) (l2G : List ℚ)
      (t0 : ℚ) (txs : List Txn),
      generate_layering_pattern wallets srcPick l1Picks l2Picks finalPick initial
        l1J l1G p1 l12G p2 l2G t0 = .ok txs →
      3 ≤ l1Picks.length → 6 ≤ l2Picks.length →
      NoSelfTransfer txs := by
  intro wallets srcPick l1Picks l2Picks finalPick initial l1J l1G p1 l12G p2 l2G t0 txs
    hok hp1 hp2
  obtain ⟨source, level1, level2, final_dest, hc, hs1, hs2, hcf, htxs⟩ :=
    layer_ok_decomp hok
  have hl1len : level1.length = 3 := sample_ok_length hp1 hs1
  have hl2len : level2.length = 6 := sample_ok_length hp2 hs2
  intro txn htxn
  rw [htxs] at htxn
  rcases List.mem_append.mp htxn with h | h
  · rcases List.mem_append.mp h with h | h
    · obtain ⟨hsrc, hdst, -⟩ := layerL01_shape source _ _ _ txn h
      have hdmem := sample_ok_subset hs1 _ (mem_of_mem_map_fst_zip hdst)
      have h2 := (List.mem_filter.mp hdmem).2
      simp only [decide_eq_true_eq] at h2
      rw [hsrc]
      exact fun heq => h2 heq.symm
    · obtain ⟨-, p, hp, hsrc, hdst⟩ := layerL12_shape level1 level2 _ _ _ txn h
      have hpidx := (List.of_mem_zip hp).1
      simp only [List.mem_bind, List.mem_range, List.mem_map] at hpidx
      obtain ⟨i, hi, j, hj, hij⟩ := hpidx
      have hi3 : i < 3 := by rw [← hl1len]; exact hi
      have hidx : p.1.1 = i ∧ p.1.2 = j := by
        first
        | rw [← hij]; exact ⟨rfl, rfl⟩
        | rw [hij]; exact ⟨rfl, rfl⟩
      have hsmem : txn.Source_wallet ∈ level1 := by
        rw [hsrc, hidx.1, List.getD_eq_getElem _ _ (by omega : i < level1.length)]
        exact List.getElem_mem _
      have hdmem : txn.Dest_wallet ∈ level2 := by
        rw [hdst, hidx.1, hidx.2,
          List.getD_eq_getElem _ _ (by omega : i * 2 + j < level2.length)]
        exact List.getElem_mem _
      have h2 := (List.mem_filter.mp (sample_ok_subset hs2 _ hdmem)).2
      simp only [decide_eq_true_eq] at h2
      exact fun heq => h2.2 (heq ▸ hsmem)
  · obtain ⟨hdst, hsrc, -⟩ := layerL2F_shape final_dest _ _ _ txn h
    have hsmem := mem_of_mem_map_fst_zip hsrc
    have hfmem := choice_ok hcf
    have h2 := (List.mem_filter.mp hfmem).2
    simp only [decide_eq_true_eq] at h2
    rw [hdst]
    exact fun heq => h2.2.2 (heq ▸ hsmem)

theorem mixer_no_self :
    ∀ (wallets mixer_wallets : List String) (num_users : ℕ) (userPicks : List ℕ)
      (mixerPick : ℕ) (amounts gaps1 : List ℚ) (pause : ℚ) (outPicks : List ℕ)
      (jitters gaps2 : List ℚ) (t0 : ℚ) (txs : List Txn),
      generate_mixer_interactions wallets mixer_wallets num_users userPicks mixerPick
        amounts gaps1 pause outPicks jitters gaps2 t0 = .ok txs →
      (∀ m ∈ mixer_wallets, m ∉ wallets) →
      NoSelfTransfer txs := by
  intro wallets mixer_wallets num_users userPicks mixerPick amounts gaps1 pause outPicks
    jitters gaps2 t0 txs hok hmix
  obtain ⟨users, mixer, output_wallets, hs1, hc, hs2, htxs⟩ := mixer_ok_decomp hok
  have hmnot : mixer ∉ wallets := hmix mixer (choice_ok hc)
  intro txn htxn
  rw [htxs] at htxn
  rcases List.mem_append.mp htxn with h | h
  · obtain ⟨hdst, hsrc, -⟩ := mixerInflow_shape mixer _ _ _ txn h
    have hsmem := sample_ok_subset hs1 _ (mem_of_mem_map_fst_zip hsrc)
    rw [hdst]
    exact fun heq => hmnot (heq ▸ hsmem)
  · obtain ⟨hsrc, hdst, -⟩ := mixerOutflow_shape mixer _ _ _ txn h
    have hdmem := (List.mem_filter.mp
      (sample_ok_subset hs2 _ (mem_of_mem_map_fst_zip hdst))).1
    rw [hsrc]
    exact fun heq => hmnot (heq ▸ hdmem)

theorem normal_no_self :
    ∀ (wallets : List String) (pairPicks : List ℕ) (amount : ℚ) (tokenPick : ℕ)
      (ts : ℚ) (txn : Txn),
      generate_normal_transaction wallets pairPicks amount tokenPick ts = .ok txn →
      wallets.Nodup → 2 ≤ pairPicks.length →
      txn.Source_wallet ≠ txn.Dest_wallet := by
  intro wallets pairPicks amount tokenPick ts txn hok hW hp
  obtain ⟨pair, token, hs, hc, htxn⟩ := normal_ok_decomp hok
  have hpl : pair.length = 2 := sample_ok_length hp hs
  have hpnd : pair.Nodup := sample_ok_nodup hW hs
  rw [htxn]
  match pair, hpl, hpnd with
  | [a, b], _, hpnd =>
    have hab : a ≠ b := by
      rw [List.nodup_cons] at hpnd
      exact fun heq => hpnd.1 (heq ▸ List.mem_singleton_self b)
    simpa using hab

theorem chooseDestination_ne :
    ∀ (wallets : List String) (source : String) (picks : List ℕ) (d : String),
      chooseDestination wallets source picks = some d → d ≠ source := by
  intro wallets source picks d h
  rw [chooseDestination] at h
  have := List.find?_some h
  simpa using this

/-! ## Evaluation of the concrete runs -/

set_option maxRecDepth 10000 in
theorem chainRunA_ok :
    generate_laundering_chain chainPoolA (List.replicate 14 0) 4 40
      [1.05, 1.05, 1.05, 1.05] [5, 5, 5, 5] [5, 5, 5, 5] [5, 5, 5, 5] 60 0
      = .ok chainTxsA := by
  simp only [chainPoolA, chainTxsA, generate_laundering_chain, sample, sampleGo,
    List.replicate, MIN_INTERMEDIARIES, MAX_INTERMEDIARIES]
  norm_num [Except.bind]
  simp only [fanOutLoop, fanInLoop]
  norm_num [round6, roundDec, round_eq, LAUNDERING_TOKEN_TYPE]

set_option maxRecDepth 10000 in
theorem chain5RunB_ok :
    generate_laundering_chain5 ["b0","b1","b2","b3","b4","b5"] (List.replicate 6 0)
      smallNetworkCfg 4 40
      [(0.95, 5, "h", 0.001), (0.95, 5, "h", 0.001), (0.95, 5, "h", 0.001), (0.95, 5, "h", 0.001)]
      [(5, "h", 0.001), (5, "h", 0.001), (5, "h", 0.001), (5, "h", 0.001)] 0
      = .ok chainTxsB := by
  simp only [smallNetworkCfg, chainTxsB, generate_laundering_chain5, sample, sampleGo,
    List.replicate]
  norm_num [Except.bind]
  simp only [fanOutLoop5, fanInLoop5]
  norm_num [round2, round4, roundDec, round_eq]
  decide

set_option maxRecDepth 10000 in
theorem circRun_ok :
    generate_circular_pattern ["c0", "c1", "c2"] 3 (List.replicate 3 0) 40
      [(0.02, 30), (0.02, 30), (0.02, 30)] 0 = .ok circTxs := by
  simp only [generate_circular_pattern, sample, sampleGo, List.replicate, circTxs]
  norm_num [Except.bind]
  simp only [circularLoop]
  norm_num [round6, roundDec, round_eq, LAUNDERING_TOKEN_TYPE]

set_option maxRecDepth 10000 in
theorem ptRun_ok :
    generate_passthrough_pattern ["p", "s1", "s2", "s3", "d1", "d2", "d3"] 0 3 3
      [0, 0, 0] [0, 0, 0] [20, 20, 20] [10, 10, 10] 30 (9 / 10) [1, 1, 1] [10, 10, 10] 0
      = .ok ptTxs := by
  simp only [ptTxs, generate_passthrough_pattern, choice, sample, sampleGo]
  norm_num [exceptOk_bind]
  simp [exceptOk_bind]
  simp only [exceptOk_bind, exceptMap_ok, ptInflow, ptOutflow]
  norm_num [round6, roundDec, round_eq, LAUNDERING_TOKEN_TYPE]

set_option maxRecDepth 10000 in
theorem structRun_ok :
    generate_structuring_pattern ["u0", "u1", "u2"] 0 2 [0, 0] [5, 5] [0, 0] 0
      = .ok structTxs := by
  simp only [structTxs, generate_structuring_pattern, choice, sample, sampleGo]
  norm_num [exceptOk_bind]
  simp [exceptOk_bind]
  simp only [exceptOk_bind, exceptMap_ok, structuringLoop]
  norm_num [round6, roundDec, round_eq, LAUNDERING_TOKEN_TYPE]

set_option maxRecDepth 10000 in
theorem peelRun_ok :
    generate_peel_chain ["v0", "v1", "v2"] 3 (List.replicate 3 0) 40
      [(1 / 10, 0), (1 / 10, 0)] 0 = .ok peelTxs := by
  simp only [peelTxs, generate_peel_chain, sample, sampleGo, List.replicate]
  norm_num [Except.bind]
  simp only [peelLoop]
  norm_num [round6, roundDec, round_eq, LAUNDERING_TOKEN_TYPE]

set_option maxRecDepth 10000 in
theorem mixerRun_ok :
    generate_mixer_interactions ["m0", "m1"] create_mixer_wallets 1 [0] 0
      [10] [0] 0 [0] [1] [0] 0 = .ok mixerTxs := by
  simp only [mixerTxs, create_mixer_wallets, generate_mixer_interactions, choice,
    sample, sampleGo]
  norm_num [exceptOk_bind]
  simp [exceptOk_bind]
  simp only [exceptOk_bind, exceptMap_ok, mixerInflow, mixerOutflow]
  norm_num [round6, roundDec, round_eq, LAUNDERING_TOKEN_TYPE]

set_option maxRecDepth 10000 in
theorem normalRun_ok :
    generate_normal_transaction ["n1", "n2"] [0, 0] 7 0 0 = .ok normalTxnA := by
  simp only [normalTxnA, generate_normal_transaction, choice, sample, sampleGo,
    TOKEN_TYPES]
  norm_num [exceptOk_bind]
  norm_num [round6, roundDec, round_eq]

theorem chooseRun_ok :
    chooseDestination ["n1", "n2"] "n1" [0, 1] = some "n2" := by
  simp [chooseDestination]

set_option maxRecDepth 10000 in
set_option maxHeartbeats 1000000 in
theorem layerRun_ok :
    generate_layering_pattern layerPool 0 [0, 0, 0] [0, 0, 0, 0, 0, 0] 0 30
      [1, 1, 1] [0, 0, 0] 0 [0, 0, 0, 0, 0, 0] 0 [0, 0, 0, 0, 0, 0] 0
      = .ok layerTxs := by
  simp only [layerPool, layerTxs, generate_layering_pattern, choice, sample, sampleGo]
  norm_num [exceptOk_bind]
  simp [exceptOk_bind]
  simp only [exceptOk_bind, exceptMap_ok, layerL01, layerL12, layerL2F]
  norm_num [round6, roundDec, round_eq, LAUNDERING_TOKEN_TYPE]

/-- C4: every generated record, whether from a suspicious-pattern
generator (laundering chain, circular, pass-through, layering,
structuring, peel chain, mixer — in either script) or from a background
(normal) generator, has source wallet different from destination wallet:
self-transfers are never generated.  The distinctness hypotheses on the
wallet pool (and the disjointness of the fixed mixer addresses from the
pool) reflect the pool of distinct uuid-derived addresses the program
builds; the length hypotheses state that enough random draws feed each
sampler, as the program supplies. -/
theorem C4_holds :
    (∀ (wallets : List String) (samplePicks : List ℕ) (K : ℕ) (initial : ℚ)
       (variations fees g1 g2 : List ℚ) (pg t0 : ℚ) (txs : List Txn),
       generate_laundering_chain wallets samplePicks K initial variations fees g1 g2 pg t0
         = .ok txs →
       wallets.Nodup → 14 ≤ samplePicks.length → K ≤ 8 →
       NoSelfTransfer txs) ∧
    (∀ (wallets : List String) (samplePicks : List ℕ) (cfg : Config5) (K : ℕ) (initial : ℚ)
       (fod : List (ℚ × ℚ × String × ℚ)) (fid : List (ℚ × String × ℚ)) (t0 : ℚ)
       (txs : List Txn5),
       generate_laundering_chain5 wallets samplePicks cfg K initial fod fid t0 = .ok txs →
       wallets.Nodup → cfg.max_hops + 2 ≤ wallets.length →
       min (cfg.max_hops + 2) wallets.length ≤ samplePicks.length → K ≤ cfg.max_hops →
       NoSelfTransfer5 txs) ∧
    (∀ (wallets : List String) (L : ℕ) (picks : List ℕ) (initial : ℚ)
       (feeGaps : List (ℚ × ℚ)) (t0 : ℚ) (txs : List Txn),
       generate_circular_pattern wallets L picks initial feeGaps t0 = .ok txs →
       wallets.Nodup → L ≤ picks.length → 2 ≤ L → feeGaps.length = L →
       NoSelfTransfer txs) ∧
    (∀ (wallets : List String) (ptPick num_sources num_dests : ℕ)
       (srcPicks dstPicks : List ℕ) (inAmounts inGaps : List ℚ)
       (pause outflow_ratio : ℚ) (outJitters outGaps : List ℚ) (t0 : ℚ) (txs : List Txn),
       generate_passthrough_pattern wallets ptPick num_sources num_dests srcPicks dstPicks
         inAmounts inGaps pause outflow_ratio outJitters outGaps t0 = .ok txs →
       NoSelfTransfer txs) ∧
    (∀ (wallets : List String) (srcPick : ℕ) (l1Picks l2Picks : List ℕ) (finalPick : ℕ)
       (initial : ℚ) (l1J l1G : List ℚ) (p1 : ℚ) (l12G : List ℚ) (p2 : ℚ) (l2G : List ℚ)
       (t0 : ℚ) (txs : List Txn),
       generate_layering_pattern wallets srcPick l1Picks l2Picks finalPick initial
         l1J l1G p1 l12G p2 l2G t0 = .ok txs →
       3 ≤ l1Picks.length → 6 ≤ l2Picks.length →
       NoSelfTransfer txs) ∧
    (∀ (wallets : List String) (srcPick num_smurfs : ℕ) (destPicks : List ℕ)
       (small_amounts gaps : List ℚ) (t0 : ℚ) (txs : List Txn),
       generate_structuring_pattern wallets srcPick num_smurfs destPicks small_amounts
         gaps t0 = .ok txs →
       NoSelfTransfer txs) ∧
    (∀ (wallets : List String) (chain_length : ℕ) (picks : List ℕ) (initial : ℚ)
       (peelGaps : List (ℚ × ℚ)) (t0 : ℚ) (txs : List Txn),
       generate_peel_chain wallets chain_length picks initial peelGaps t0 = .ok txs →
       wallets.Nodup → chain_length ≤ picks.length → peelGaps.length < chain_length →
       NoSelfTransfer txs) ∧
    (∀ (wallets mixer_wallets : List String) (num_users : ℕ) (userPicks : List ℕ)
       (mixerPick : ℕ) (amounts gaps1 : List ℚ) (pause : ℚ) (outPicks : List ℕ)
       (jitters gaps2 : List ℚ) (t0 : ℚ) (txs : List Txn),
       generate_mixer_interactions wallets mixer_wallets num_users userPicks mixerPick
         amounts gaps1 pause outPicks jitters gaps2 t0 = .ok txs →
       (∀ m ∈ mixer_wallets, m ∉ wallets) →
       NoSelfTransfer txs) ∧
    (∀ (wallets : List String) (pairPicks : List ℕ) (amount : ℚ) (tokenPick : ℕ)
       (ts : ℚ) (txn : Txn),
       generate_normal_transaction wallets pairPicks amount tokenPick ts = .ok txn →
       wallets.Nodup → 2 ≤ pairPicks.length →
       txn.Source_wallet ≠ txn.Dest_wallet) ∧
    (∀ (wallets : List String) (source : String) (picks : List ℕ) (d : String),
       chooseDestination wallets source picks = some d → d ≠ source) :=
  ⟨chain_no_self, chain5_no_self, circular_no_self, pt_no_self, layer_no_self,
   struct_no_self, peel_no_self, mixer_no_self, normal_no_self, chooseDestination_ne⟩

set_option maxRecDepth 10000 in
theorem C4_holds_witness :
    NoSelfTransfer chainTxsA ∧ NoSelfTransfer5 chainTxsB ∧ NoSelfTransfer circTxs ∧
    NoSelfTransfer ptTxs ∧ NoSelfTransfer layerTxs ∧ NoSelfTransfer structTxs ∧
    NoSelfTransfer peelTxs ∧ NoSelfTransfer mixerTxs ∧
    normalTxnA.Source_wallet ≠ normalTxnA.Dest_wallet ∧ ("n2" : String) ≠ "n1" := by
  refine ⟨?_, ?_, ?_, ?_, ?_, ?_, ?_, ?_, ?_, ?_⟩
  · exact C4_holds.1 chainPoolA (List.replicate 14 0) 4 40
      [1.05, 1.05, 1.05, 1.05] [5, 5, 5, 5] [5, 5, 5, 5] [5, 5, 5, 5] 60 0 chainTxsA
      chainRunA_ok (by decide) (by simp) (by norm_num)
  · exact C4_holds.2.1 ["b0","b1","b2","b3","b4","b5"] (List.replicate 6 0)
      smallNetworkCfg 4 40
      [(0.95, 5, "h", 0.001), (0.95, 5, "h", 0.001), (0.95, 5, "h", 0.001), (0.95, 5, "h", 0.001)]
      [(5, "h", 0.001), (5, "h", 0.001), (5, "h", 0.001), (5, "h", 0.001)] 0 chainTxsB
      chain5RunB_ok (by decide) (by simp [smallNetworkCfg]) (by simp [smallNetworkCfg])
      (by simp [smallNetworkCfg])
  · exact C4_holds.2.2.1 ["c0", "c1", "c2"] 3 (List.replicate 3 0) 40
      [(0.02, 30), (0.02, 30), (0.02, 30)] 0 circTxs
      circRun_ok (by decide) (by simp) (by norm_num) (by rfl)
  · exact C4_holds.2.2.2.1 ["p", "s1", "s2", "s3", "d1", "d2", "d3"] 0 3 3
      [0, 0, 0] [0, 0, 0] [20, 20, 20] [10, 10, 10] 30 (9 / 10) [1, 1, 1] [10, 10, 10] 0
      ptTxs ptRun_ok
  · exact C4_holds.2.2.2.2.1 layerPool 0 [0, 0, 0] [0, 0, 0, 0, 0, 0] 0 30
      [1, 1, 1] [0, 0, 0] 0 [0, 0, 0, 0, 0, 0] 0 [0, 0, 0, 0, 0, 0] 0 layerTxs
      layerRun_ok (by norm_num) (by norm_num)
  · exact C4_holds.2.2.2.2.2.1 ["u0", "u1", "u2"] 0 2 [0, 0] [5, 5] [0, 0] 0 structTxs
      structRun_ok
  · exact C4_holds.2.2.2.2.2.2.1 ["v0", "v1", "v2"] 3 (List.replicate 3 0) 40
      [(1 / 10, 0), (1 / 10, 0)] 0 peelTxs
      peelRun_ok (by decide) (by simp) (by norm_num)
  · exact C4_holds.2.2.2.2.2.2.2.1 ["m0", "m1"] create_mixer_wallets 1 [0] 0
      [10] [0] 0 [0] [1] [0] 0 mixerTxs
      mixerRun_ok (by decide)
  · exact C4_holds.2.2.2.2.2.2.2.2.1 ["n1", "n2"] [0, 0] 7 0 0 normalTxnA
      normalRun_ok (by decide) (by norm_num)
  · exact C4_holds.2.2.2.2.2.2.2.2.2 ["n1", "n2"] "n1" [0, 1] "n2" chooseRun_ok

/-! ## Token-type invariants -/

theorem chain_all_token :
    ∀ (wallets : List String) (samplePicks : List ℕ) (K : ℕ) (initial : ℚ)
      (variations fees g1 g2 : List ℚ) (pg t0 : ℚ) (txs : List Txn),
      generate_laundering_chain wallets samplePicks K initial variations fees g1 g2 pg t0
        = .ok txs →
      AllLaunderingToken txs := by
  intro wallets samplePicks K initial variations fees g1 g2 pg t0 txs hok
  obtain ⟨available, hsa, htxs⟩ := chain_ok_decomp hok
  intro txn htxn
  rw [htxs] at htxn
  rcases List.mem_append.mp htxn with h | h
  · exact (fanOutLoop_shape _ _ _ _ txn h).2.2
  · exact (fanInLoop_shape _ _ _ _ txn h).2.2

theorem circular_all_token :
    ∀ (wallets : List String) (L : ℕ) (picks : List ℕ) (initial : ℚ)
      (feeGaps : List (ℚ × ℚ)) (t0 : ℚ) (txs : List Txn),
      generate_circular_pattern wallets L picks initial feeGaps t0 = .ok txs →
      AllLaunderingToken txs := by
  intro wallets L picks initial feeGaps t0 txs hok
  obtain ⟨c, hsa, htxs⟩ := circ_ok_decomp hok
  intro txn htxn
  rw [htxs] at htxn
  exact circularLoop_token c L feeGaps 0 initial t0 txn htxn

theorem pt_all_token :
    ∀ (wallets : List String) (ptPick num_sources num_dests : ℕ)
      (srcPicks dstPicks : List ℕ) (inAmounts inGaps : List ℚ)
      (pause outflow_ratio : ℚ) (outJitters outGaps : List ℚ) (t0 : ℚ) (txs : List Txn),
      generate_passthrough_pattern wallets ptPick num_sources num_dests srcPicks dstPicks
        inAmounts inGaps pause outflow_ratio outJitters outGaps t0 = .ok txs →
      AllLaunderingToken txs := by
  intro wallets ptPick ns nd srcPicks dstPicks inAmounts inGaps pause ratio outJitters
    outGaps t0 txs hok
  obtain ⟨pt, sources, dests, hc, hs1, hs2, htxs⟩ := pt_ok_decomp hok
  intro txn htxn
  rw [htxs] at htxn
  rcases List.mem_append.mp htxn with h | h
  · exact (ptInflow_shape _ _ _ _ txn h).2.2
  · exact (ptOutflow_shape _ _ _ _ txn h).2.2

theorem layer_all_token :
    ∀ (wallets : List String) (srcPick : ℕ) (l1Picks l2Picks : List ℕ) (finalPick : ℕ)
      (initial : ℚ) (l1J l1G : List ℚ) (p1 : ℚ) (l12G : List ℚ) (p2 : ℚ) (l2G : List ℚ)
      (t0 : ℚ) (txs : List Txn),
      generate_layering_pattern wallets srcPick l1Picks l2Picks finalPick initial
        l1J l1G p1 l12G p2 l2G t0 = .ok txs →
      AllLaunderingToken txs := by
  intro wallets srcPick l1Picks l2Picks finalPick initial l1J l1G p1 l12G p2 l2G t0 txs hok
  obtain ⟨source, level1, level2, final_dest, hc, hs1, hs2, hcf, htxs⟩ :=
    layer_ok_decomp hok
  intro txn htxn
  rw [htxs] at htxn
  rcases List.mem_append.mp htxn with h | h
  · rcases List.mem_append.mp h with h | h
    · exact (layerL01_shape _ _ _ _ txn h).2.2
    · exact (layerL12_shape _ _ _ _ _ txn h).1
  · exact (layerL2F_shape _ _ _ _ txn h).2.2

theorem struct_all_token :
    ∀ (wallets : List String) (srcPick num_smurfs : ℕ) (destPicks : List ℕ)
      (small_amounts gaps : List ℚ) (t0 : ℚ) (txs : List Txn),
      generate_structuring_pattern wallets srcPick num_smurfs destPicks small_amounts
        gaps t0 = .ok txs →
      AllLaunderingToken txs := by
  intro wallets srcPick num_smurfs destPicks small_amounts gaps t0 txs hok
  obtain ⟨source, destinations, hc, hs, htxs⟩ := struct_ok_decomp hok
  intro txn htxn
  rw [htxs] at htxn
  exact (structuringLoop_shape _ _ _ txn htxn).2.2

theorem peel_all_token :
    ∀ (wallets : List String) (chain_length : ℕ) (picks : List ℕ) (initial : ℚ)
      (peelGaps : List (ℚ × ℚ)) (t0 : ℚ) (txs : List Txn),
      generate_peel_chain wallets chain_length picks initial peelGaps t0 = .ok txs →
      AllLaunderingToken txs := by
  intro wallets chain_length picks initial peelGaps t0 txs hok
  obtain ⟨c, hsa, htxs⟩ := peel_ok_decomp hok
  intro txn htxn
  rw [htxs] at htxn
  exact (peelLoop_shape c peelGaps 0 initial t0 txn htxn).1

theorem mixer_all_token :
    ∀ (wallets mixer_wallets : List String) (num_users : ℕ) (userPicks : List ℕ)
      (mixerPick : ℕ) (amounts gaps1 : List ℚ) (pause : ℚ) (outPicks : List ℕ)
      (jitters gaps2 : List ℚ) (t0 : ℚ) (txs : List Txn),
      generate_mixer_interactions wallets mixer_wallets num_users userPicks mixerPick
        amounts gaps1 pause outPicks jitters gaps2 t0 = .ok txs →
      AllLaunderingToken txs := by
  intro wallets mixer_wallets num_users userPicks mixerPick amounts gaps1 pause outPicks
    jitters gaps2 t0 txs hok
  obtain ⟨users, mixer, output_wallets, hs1, hc, hs2, htxs⟩ := mixer_ok_decomp hok
  intro txn htxn
  rw [htxs] at htxn
  rcases List.mem_append.mp htxn with h | h
  · exact (mixerInflow_shape _ _ _ _ txn h).2.2
  · exact (mixerOutflow_shape _ _ _ _ txn h).2.2

theorem normal_token_mem :
    ∀ (wallets : List String) (pairPicks : List ℕ) (amount : ℚ) (tokenPick : ℕ)
      (ts : ℚ) (txn : Txn),
      generate_normal_transaction wallets pairPicks amount tokenPick ts = .ok txn →
      txn.token_type ∈ TOKEN_TYPES := by
  intro wallets pairPicks amount tokenPick ts txn hok
  obtain ⟨pair, token, hs, hc, htxn⟩ := normal_ok_decomp hok
  rw [htxn]
  exact choice_ok hc

theorem normal_token_attain :
    ∀ tok ∈ TOKEN_TYPES, ∃ tokenPick : ℕ,
      ∀ (wallets : List String) (pairPicks : List ℕ) (amount ts : ℚ) (txn : Txn),
        generate_normal_transaction wallets pairPicks amount tokenPick ts = .ok txn →
        txn.token_type = tok := by
  intro tok htok
  obtain ⟨i, hi, hEq⟩ := List.mem_iff_getElem.mp htok
  refine ⟨i, ?_⟩
  intro wallets pairPicks amount ts txn hok
  obtain ⟨pair, token, hs, hc, htxn⟩ := normal_ok_decomp hok
  have hne : TOKEN_TYPES.isEmpty = false := rfl
  rw [choice, hne] at hc
  simp only [Bool.false_eq_true, if_false, Except.ok.injEq] at hc
  rw [htxn]
  show token = tok
  rw [← hc, List.getD_eq_getElem _ _ (by rw [Nat.mod_eq_of_lt hi]; exact hi)]
  have hmod : i % TOKEN_TYPES.length = i := Nat.mod_eq_of_lt hi
  rw [← hEq]
  congr 1

/-- C10: the single laundering token constant is `"ETH"`; every record
emitted by any of the seven suspicious-pattern generators of
`generate_synthetic_dataset.py` (laundering chain, circular,
pass-through, layering, structuring, peel chain, mixer) carries exactly
that constant token, while a normal background record's token is the
`random.choice` draw from the configured `TOKEN_TYPES` list: it always
lies in that list, and every token of the list is produced by some
draw. -/
theorem C10_holds :
    LAUNDERING_TOKEN_TYPE = "ETH" ∧
    (∀ (wallets : List String) (samplePicks : List ℕ) (K : ℕ) (initial : ℚ)
       (variations fees g1 g2 : List ℚ) (pg t0 : ℚ) (txs : List Txn),
       generate_laundering_chain wallets samplePicks K initial variations fees g1 g2 pg t0
         = .ok txs →
       AllLaunderingToken txs) ∧
    (∀ (wallets : List String) (L : ℕ) (picks : List ℕ) (initial : ℚ)
       (feeGaps : List (ℚ × ℚ)) (t0 : ℚ) (txs : List Txn),
       generate_circular_pattern wallets L picks initial feeGaps t0 = .ok txs →
       AllLaunderingToken txs) ∧
    (∀ (wallets : List String) (ptPick num_sources num_dests : ℕ)
       (srcPicks dstPicks : List ℕ) (inAmounts inGaps : List ℚ)
       (pause outflow_ratio : ℚ) (outJitters outGaps : List ℚ) (t0 : ℚ) (txs : List Txn),
       generate_passthrough_pattern wallets ptPick num_sources num_dests srcPicks dstPicks
         inAmounts inGaps pause outflow_ratio outJitters outGaps t0 = .ok txs →
       AllLaunderingToken txs) ∧
    (∀ (wallets : List String) (srcPick : ℕ) (l1Picks l2Picks : List ℕ) (finalPick : ℕ)
       (initial : ℚ) (l1J l1G : List ℚ) (p1 : ℚ) (l12G : List ℚ) (p2 : ℚ) (l2G : List ℚ)
       (t0 : ℚ) (txs : List Txn),
       generate_layering_pattern wallets srcPick l1Picks l2Picks finalPick initial
         l1J l1G p1 l12G p2 l2G t0 = .ok txs →
       AllLaunderingToken txs) ∧
    (∀ (wallets : List String) (srcPick num_smurfs : ℕ) (destPicks : List ℕ)
       (small_amounts gaps : List ℚ) (t0 : ℚ) (txs : List Txn),
       generate_structuring_pattern wallets srcPick num_smurfs destPicks small_amounts
         gaps t0 = .ok txs →
       AllLaunderingToken txs) ∧
    (∀ (wallets : List String) (chain_length : ℕ) (picks : List ℕ) (initial : ℚ)
       (peelGaps : List (ℚ × ℚ)) (t0 : ℚ) (txs : List Txn),
       generate_peel_chain wallets chain_length picks initial peelGaps t0 = .ok txs →
       AllLaunderingToken txs) ∧
    (∀ (wallets mixer_wallets : List String) (num_users : ℕ) (userPicks : List ℕ)
       (mixerPick : ℕ) (amounts gaps1 : List ℚ) (pause : ℚ) (outPicks : List ℕ)
       (jitters gaps2 : List ℚ) (t0 : ℚ) (txs : List Txn),
       generate_mixer_interactions wallets mixer_wallets num_users userPicks mixerPick
         amounts gaps1 pause outPicks jitters gaps2 t0 = .ok txs →
       AllLaunderingToken txs) ∧
    (∀ (wallets : List String) (pairPicks : List ℕ) (amount : ℚ) (tokenPick : ℕ)
       (ts : ℚ) (txn : Txn),
       generate_normal_transaction wallets pairPicks amount tokenPick ts = .ok txn →
       txn.token_type ∈ TOKEN_TYPES) ∧
    (∀ tok ∈ TOKEN_TYPES, ∃ tokenPick : ℕ,
       ∀ (wallets : List String) (pairPicks : List ℕ) (amount ts : ℚ) (txn : Txn),
         generate_normal_transaction wallets pairPicks amount tokenPick ts = .ok txn →
         txn.token_type = tok) :=
  ⟨rfl, chain_all_token, circular_all_token, pt_all_token, layer_all_token,
   struct_all_token, peel_all_token, mixer_all_token, normal_token_mem,
   normal_token_attain⟩

set_option maxRecDepth 10000 in
theorem C10_holds_witness :
    AllLaunderingToken chainTxsA ∧ AllLaunderingToken circTxs ∧
    AllLaunderingToken ptTxs ∧ AllLaunderingToken layerTxs ∧
    AllLaunderingToken structTxs ∧ AllLaunderingToken peelTxs ∧
    AllLaunderingToken mixerTxs ∧ normalTxnA.token_type ∈ TOKEN_TYPES ∧
    (∃ tokenPick : ℕ,
      ∀ (wallets : List String) (pairPicks : List ℕ) (amount ts : ℚ) (txn : Txn),
        generate_normal_transaction wallets pairPicks amount tokenPick ts = .ok txn →
        txn.token_type = "BTC") := by
  refine ⟨?_, ?_, ?_, ?_, ?_, ?_, ?_, ?_, ?_⟩
  · exact C10_holds.2.1 chainPoolA (List.replicate 14 0) 4 40
      [1.05, 1.05, 1.05, 1.05] [5, 5, 5, 5] [5, 5, 5, 5] [5, 5, 5, 5] 60 0 chainTxsA
      chainRunA_ok
  · exact C10_holds.2.2.1 ["c0", "c1", "c2"] 3 (List.replicate 3 0) 40
      [(0.02, 30), (0.02, 30), (0.02, 30)] 0 circTxs circRun_ok
  · exact C10_holds.2.2.2.1 ["p", "s1", "s2", "s3", "d1", "d2", "d3"] 0 3 3
      [0, 0, 0] [0, 0, 0] [20, 20, 20] [10, 10, 10] 30 (9 / 10) [1, 1, 1] [10, 10, 10] 0
      ptTxs ptRun_ok
  · exact C10_holds.2.2.2.2.1 layerPool 0 [0, 0, 0] [0, 0, 0, 0, 0, 0] 0 30
      [1, 1, 1] [0, 0, 0] 0 [0, 0, 0, 0, 0, 0] 0 [0, 0, 0, 0, 0, 0] 0 layerTxs
      layerRun_ok
  · exact C10_holds.2.2.2.2.2.1 ["u0", "u1", "u2"] 0 2 [0, 0] [5, 5] [0, 0] 0 structTxs
      structRun_ok
  · exact C10_holds.2.2.2.2.2.2.1 ["v0", "v1", "v2"] 3 (List.replicate 3 0) 40
      [(1 / 10, 0), (1 / 10, 0)] 0 peelTxs peelRun_ok
  · exact C10_holds.2.2.2.2.2.2.2.1 ["m0", "m1"] create_mixer_wallets 1 [0] 0
      [10] [0] 0 [0] [1] [0] 0 mixerTxs mixerRun_ok
  · exact C10_holds.2.2.2.2.2.2.2.2.1 ["n1", "n2"] [0, 0] 7 0 0 normalTxnA normalRun_ok
  · exact C10_holds.2.2.2.2.2.2.2.2.2 "BTC" (by decide)
